import Mathlib

/-!
Verification of the `moniker_client` Python package (open-moniker-client).

The development shallowly embeds the parts of the source that the checked
properties touch:

* `src/moniker_client/adapters/oracle.py` — the query-rewriting passes of
  `OracleAdapter` (`_build_query`, `_inject_flashback`, `_inject_where_clause`,
  `_inject_limit`, `_extract_filters`);
* `src/moniker_client/client.py` — the `Moniker` value type
  (`child` / `parent` navigation), and `MonikerClient._resolve`,
  `MonikerClient.batch_resolve`, `MonikerClient.read` (cache, circuit breaker,
  deprecation warnings, error wrapping);
* `src/moniker_client/resilience.py` — `retry_with_backoff`,
  `ClientCircuitBreaker`.

Modelling conventions.  Python strings are Lean `String`s manipulated through
their character lists (Python indexes and slices by code point, which matches
`String.data`).  Python `float` clock readings (`time.time()`,
`time.monotonic()`) are modelled as a single abstract integer clock `Int`:
the code only ever adds, subtracts and compares times, so any linearly
ordered abelian group models it and `Int` keeps every comparison kernel-
computable.  HTTP traffic is scripted: one resolve call reads its per-attempt
responses from a function `Nat → ResolveResponse`, and the number of GETs a
call issues is the number of attempts it consumes.  Sleeping, jitter and the
logging side channel are not modelled — no checked property mentions them.
Exceptions are modelled as values (`Except`, or explicit outcome inductives);
a Python exception class is identified by its type name, which is exactly
what `retry_with_backoff`'s classifier and the `except` clauses dispatch on.
-/

/-! ### Python string primitives -/

/-- Python `str.upper()` (ASCII is all the source ever feeds it). -/
def pyUpper (s : String) : String := ⟨s.data.map Char.toUpper⟩

/-- Python `needle in hay` for strings: contiguous substring containment. -/
def pyIn (needle hay : String) : Bool := decide (needle.data <:+: hay.data)

/-- Python `s.startswith(pre)`. -/
def pyStartsWith (pre s : String) : Bool := decide (pre.data <+: s.data)

/-- Helper for `pyFind`: first index `≥ i` at which `needle` occurs. -/
def findFrom (needle : List Char) : List Char → Nat → Option Nat
  | [], i => if needle = [] then some i else none
  | c :: rest, i =>
    if needle.isPrefixOf (c :: rest) then some i else findFrom needle rest (i + 1)

/-- Python `hay.find(needle, start)`: absolute index of the first occurrence
at or after `start`, `none` for Python's `-1`. -/
def pyFind (needle hay : String) (start : Nat) : Option Nat :=
  findFrom needle.data (hay.data.drop start) start

/-- Characters Python's argument-less `str.strip()` / `rstrip()` remove. -/
def wsChars : List Char := [' ', '\t', '\n', '\r', '\x0B', '\x0C']

/-- Drop the longest run of characters from `bad` at the front of a list. -/
def dropLeadingSet (bad : List Char) : List Char → List Char
  | [] => []
  | c :: cs => if c ∈ bad then dropLeadingSet bad cs else c :: cs

/-- Python `s.lstrip(bad)`. -/
def pyLstrip (bad : List Char) (s : String) : String := ⟨dropLeadingSet bad s.data⟩

/-- Python `s.rstrip(bad)`. -/
def pyRstrip (bad : List Char) (s : String) : String :=
  ⟨(dropLeadingSet bad s.data.reverse).reverse⟩

/-- Python `s.strip(bad)`. -/
def pyStrip (bad : List Char) (s : String) : String := pyRstrip bad (pyLstrip bad s)

/-- Python `len(s)` (code points). -/
def strLen (s : String) : Nat := s.data.length

/-- Python slice `s[:n]` (by code point). -/
def strTake (s : String) (n : Nat) : String := ⟨s.data.take n⟩

/-- Python slice `s[n:]` (by code point). -/
def strDrop (s : String) (n : Nat) : String := ⟨s.data.drop n⟩

/-- Python `sep.join(parts)` at the character level. -/
def joinChar (sep : Char) : List (List Char) → List Char
  | [] => []
  | [x] => x
  | x :: y :: rest => x ++ sep :: joinChar sep (y :: rest)

/-- Python `s.split(sep)` for a one-character separator, at the character
level: `""` splits to `[""]`, separators at the ends produce empty pieces. -/
def splitChar (sep : Char) : List Char → List (List Char)
  | [] => [[]]
  | c :: rest =>
    if c = sep then [] :: splitChar sep rest
    else
      match splitChar sep rest with
      | [] => [[c]]
      | seg :: segs => (c :: seg) :: segs

/-- Python `s.isdigit()` restricted to ASCII: non-empty and all digits. -/
def pyIsDigit (s : String) : Bool := ¬ s.data.isEmpty ∧ s.data.all (·.isDigit)

/-- Erase every whitespace character; used to compare queries modulo
whitespace. -/
def stripSpaces (s : String) : String := ⟨s.data.filter (fun c => ¬ c.isWhitespace)⟩

/-! ### Python values (the `Any`-typed parameter maps)

A `dict[str, Any]` is an association list in insertion order; `dictSet`
mirrors CPython assignment (overwrite in place, append when new). -/

/-- The Python values that appear in `ResolvedSource.params` and friends. -/
inductive PyVal where
  | vstr (s : String)
  | vint (n : Int)
  | vbool (b : Bool)
  | vlist (xs : List PyVal)
  | vdict (d : List (String × PyVal))
  | vnone

/-- Whether a value is a Python `str` (`isinstance(v, str)`). -/
def PyVal.isStr : PyVal → Bool
  | .vstr _ => true
  | _ => false

/-- Whether a value is a Python `dict` (`isinstance(v, dict)`). -/
def PyVal.isDict : PyVal → Bool
  | .vdict _ => true
  | _ => false

/-- Whether a value is Python's `None` (`v is None`). -/
def PyVal.isNone : PyVal → Bool
  | .vnone => true
  | _ => false

/-- Python truthiness of a value (`if v:`). -/
def pyTruthy : PyVal → Bool
  | .vstr s => s ≠ ""
  | .vint n => n ≠ 0
  | .vbool b => b
  | .vlist xs => ¬ xs.isEmpty
  | .vdict d => ¬ d.isEmpty
  | .vnone => false

/-- Python `", ".join` as `repr`/`str` helpers need it. -/
def pyReprJoin : List String → String
  | [] => ""
  | [x] => x
  | x :: y :: rest => x ++ ", " ++ pyReprJoin (y :: rest)

mutual

/-- Python `repr(v)` for the modelled values. -/
def pyRepr : PyVal → String
  | .vstr s => "'" ++ s ++ "'"
  | .vint n => toString n
  | .vbool b => if b then "True" else "False"
  | .vlist xs => "[" ++ pyReprJoin (pyReprList xs) ++ "]"
  | .vdict d => "\x7b" ++ pyReprJoin (pyReprDict d) ++ "\x7d"
  | .vnone => "None"

/-- `repr` of each element of a list. -/
def pyReprList : List PyVal → List String
  | [] => []
  | v :: vs => pyRepr v :: pyReprList vs

/-- `repr` of each `key: value` pair of a dict. -/
def pyReprDict : List (String × PyVal) → List String
  | [] => []
  | kv :: rest => ("'" ++ kv.1 ++ "': " ++ pyRepr kv.2) :: pyReprDict rest

end

/-- Python `str(v)` (same as `repr` except on strings, which print raw). -/
def pyStr (v : PyVal) : String :=
  match v with
  | .vstr s => s
  | _ => pyRepr v

/-- `d.get(k)`: the first (only) binding of `k`. -/
def dictGet (d : List (String × PyVal)) (k : String) : Option PyVal :=
  (d.find? (fun kv => kv.1 = k)).map (·.2)

/-- CPython `d[k] = v`: overwrite in place if present, append otherwise. -/
def dictSet (d : List (String × PyVal)) (k : String) (v : PyVal) :
    List (String × PyVal) :=
  if d.any (fun kv => kv.1 = k) then
    d.map (fun kv => if kv.1 = k then (k, v) else kv)
  else d ++ [(k, v)]

/-! ### `OracleAdapter` query rewriting (`src/moniker_client/adapters/oracle.py`)

The adapter rewrites the binding's native SQL in three ordered passes:
temporal (`_inject_flashback`), filters (`_inject_where_clause`), limit
(`_inject_limit`), driven by `_build_query` over the parameter map. -/

/-- `_RESERVED_PARAMS`: keys never interpreted as WHERE filters. -/
def reservedParams : List String :=
  ["moniker_version", "moniker_revision", "as_of", "limit", "offset",
   "order_by", "method", "response_path", "query_params", "moniker_params"]

/-- `OracleAdapter._extract_filters`: non-reserved, non-`None` entries of
the nested `moniker_params` dict first, then of the top level (top level
excludes dict values and overwrites on key collision). -/
def extract_filters (params : List (String × PyVal)) : List (String × PyVal) :=
  let monikerParams : List (String × PyVal) :=
    match dictGet params "moniker_params" with
    | some (.vdict d) => d
    | _ => []
  let fromNested := monikerParams.foldl
    (fun acc kv =>
      if kv.1 ∉ reservedParams ∧ ¬ kv.2.isNone then dictSet acc kv.1 kv.2 else acc)
    []
  params.foldl
    (fun acc kv =>
      if kv.1 ∉ reservedParams ∧ ¬ kv.2.isDict ∧ ¬ kv.2.isNone then
        dictSet acc kv.1 kv.2
      else acc)
    fromNested

/-- One condition of `_inject_where_clause`: `k = 'v'` for a string, an
`IN (…)` clause for a sequence (strings quoted when all elements are
strings), `k = str(v)` otherwise.  `vlist` models both `list` and `tuple`. -/
def buildCondition (k : String) (v : PyVal) : String :=
  match v with
  | .vstr s => k ++ " = '" ++ s ++ "'"
  | .vlist xs =>
    let valuesStr :=
      if xs.all PyVal.isStr then
        pyReprJoin (xs.map (fun x => "'" ++ pyStr x ++ "'"))
      else
        pyReprJoin (xs.map pyStr)
    k ++ " IN (" ++ valuesStr ++ ")"
  | _ => k ++ " = " ++ pyStr v

/-- The terminators before which `_inject_where_clause` inserts `WHERE`. -/
def whereEndMarkers : List String := [" GROUP ", " ORDER ", " HAVING ", " UNION ", ";"]

/-- Python `" AND ".join(conditions)`. -/
def joinAnd : List String → String
  | [] => ""
  | [x] => x
  | x :: y :: rest => x ++ " AND " ++ joinAnd (y :: rest)

/-- `OracleAdapter._inject_where_clause`: append the filter conditions right
after an existing `WHERE`, otherwise insert a new `WHERE` before the first
terminating keyword (or at the end). -/
def inject_where_clause (query : String) (filters : List (String × PyVal)) : String :=
  if filters.isEmpty then query
  else
    let queryUpper := pyUpper query
    let conditionStr := joinAnd (filters.map (fun kv => buildCondition kv.1 kv.2))
    match pyFind " WHERE " queryUpper 0 with
    | some wherePos =>
      strTake query (wherePos + 7) ++ conditionStr ++ " AND " ++ strDrop query (wherePos + 7)
    | none =>
      let insertPos := whereEndMarkers.foldl
        (fun acc m =>
          match pyFind m queryUpper 0 with
          | some p => if p < acc then p else acc
          | none => acc)
        (strLen query)
      strTake query insertPos ++ " WHERE " ++ conditionStr ++ strDrop query insertPos

/-- The markers bounding the table reference in `_inject_flashback`. -/
def flashbackEndMarkers : List String :=
  [" WHERE ", " GROUP ", " ORDER ", " HAVING ", " UNION ", ";"]

/-- `OracleAdapter._inject_flashback`: insert `AS OF SCN n` (numeric value)
or `AS OF TIMESTAMP TO_TIMESTAMP(...)` after the table reference that
follows the first ` FROM `; the query is unchanged when no ` FROM ` occurs. -/
def inject_flashback (query : String) (asOf : String) : String :=
  let queryUpper := pyUpper query
  let flashbackClause :=
    if pyIsDigit asOf then " AS OF SCN " ++ asOf
    else " AS OF TIMESTAMP TO_TIMESTAMP('" ++ asOf ++ "', 'YYYY-MM-DD HH24:MI:SS')"
  match pyFind " FROM " queryUpper 0 with
  | none => query
  | some fromPos =>
    let endPos := flashbackEndMarkers.foldl
      (fun acc m =>
        match pyFind m queryUpper (fromPos + 6) with
        | some p => if p < acc then p else acc
        | none => acc)
      (strLen query)
    strTake query endPos ++ flashbackClause ++ strDrop query endPos

/-- `OracleAdapter._inject_limit`: append `FETCH FIRST {limit} ROWS ONLY`
(after stripping a trailing `;`) unless the query already has a `FETCH `
token.  `limitStr` is Python's `f"{limit}"` rendering of the limit value. -/
def inject_limit (query : String) (limitStr : String) : String :=
  if pyIn "FETCH " (pyUpper query) then query
  else
    let query' := pyRstrip wsChars (pyRstrip [';'] query)
    query' ++ " FETCH FIRST " ++ limitStr ++ " ROWS ONLY"

/-- `OracleAdapter._build_query` over the binding's query and parameter map.
`.error` marks the one path on which the Python raises (`as_of.isdigit()` on
a non-string truthy `as_of`); every checked property stays on `.ok`. -/
def build_query (resolvedQuery : Option String) (params : List (String × PyVal)) :
    Except String (Option String) :=
  match resolvedQuery with
  | none => .ok none
  | some q =>
    if q = "" then .ok none
    else
      let getP := fun k => (dictGet params k).getD .vnone
      let asOfV := if pyTruthy (getP "as_of") then getP "as_of" else getP "moniker_version"
      match (if pyTruthy asOfV then some asOfV else none) with
      | some (.vstr s) => .ok (some (afterFlashback (inject_flashback q s) params))
      | some _ => .error "AttributeError: isdigit on a non-string as_of"
      | none => .ok (some (afterFlashback q params))
where
  /-- The filter and limit passes that follow the temporal pass. -/
  afterFlashback (q1 : String) (params : List (String × PyVal)) : String :=
    let filters := extract_filters params
    let q2 := if ¬ filters.isEmpty then inject_where_clause q1 filters else q1
    match dictGet params "limit" with
    | some v => if ¬ v.isNone then inject_limit q2 (pyStr v) else q2
    | none => q2

/-! ### The `Moniker` value type (`src/moniker_client/client.py`, class `Moniker`) -/

/-- The `moniker://` scheme the constructor strips. -/
def monikerScheme : String := "moniker://"

/-- `Moniker.__init__`'s path normalization: strip the scheme when present,
then strip `/` from both ends. -/
def normalizePath (p : String) : String :=
  let p1 := if pyStartsWith monikerScheme p then strDrop p (strLen monikerScheme) else p
  pyStrip ['/'] p1

/-- A `Moniker`: the stored, already-normalized `_path`. -/
structure Moniker where
  path : String
deriving DecidableEq

/-- `Moniker(path)`: construct with normalization. -/
def mkMoniker (p : String) : Moniker := ⟨normalizePath p⟩

/-- `Moniker.child`: append the separator-stripped subpath and re-normalize
through the constructor. -/
def Moniker.child (m : Moniker) (subpath : String) : Moniker :=
  mkMoniker (m.path ++ "/" ++ pyStrip ['/'] subpath)

/-- `Moniker.parent`: `None` at the root, otherwise everything before the
last separator (via split / join), re-normalized through the constructor. -/
def Moniker.parent (m : Moniker) : Option Moniker :=
  if pyIn "/" m.path then
    some (mkMoniker ⟨joinChar '/' ((splitChar '/' m.path.data).dropLast)⟩)
  else none

/-! ### Resilience (`src/moniker_client/resilience.py`) -/

/-- `RetryConfig` (delays are irrelevant to the checked properties and not
modelled; `time.sleep` only pauses). -/
structure RetryConfig where
  max_retries : Nat := 3
  retryable_status_codes : List Nat := [429, 502, 503, 504]
deriving DecidableEq

/-- A Python exception as the retry classifier and the `except` clauses see
it: its type name, and `e.response.status_code` when the error carries a
response object. -/
structure PyError where
  typeName : String
  statusCode : Option Nat := none
deriving DecidableEq

/-- The classifier inside `retry_with_backoff`: retryable when the carried
status code is in the configured set, or when the type name contains
`Connection`, `Timeout` or `Network`. -/
def isRetryable (cfg : RetryConfig) (e : PyError) : Bool :=
  (match e.statusCode with
   | some c => c ∈ cfg.retryable_status_codes
   | none => false)
  || ["Connection", "Timeout", "Network"].any (fun t => pyIn t e.typeName)

/-- Outcome of `retry_with_backoff`: a returned value, a re-raised
underlying error, or the `RetryExhausted` raised after the loop. -/
inductive RetryResult (α : Type) where
  | ok (v : α)
  | raised (e : PyError)
  | exhausted (last : Option PyError)
deriving DecidableEq

/-- The `for attempt in range(max_retries + 1)` loop of `retry_with_backoff`:
`attempts` is the list of remaining attempt indices, `last` the last
exception seen.  Returns the outcome and the number of invocations of the
work function.  An attempt's failure is re-raised when it is not retryable
or the attempt index equals `max_retries`; falling off the loop raises
`RetryExhausted`. -/
def retryLoop (cfg : RetryConfig) (work : Nat → Except PyError α) :
    List Nat → Option PyError → RetryResult α × Nat
  | [], last => (.exhausted last, 0)
  | a :: rest, _ =>
    match work a with
    | .ok v => (.ok v, 1)
    | .error e =>
      if ¬ isRetryable cfg e ∨ a = cfg.max_retries then (.raised e, 1)
      else
        let r := retryLoop cfg work rest (some e)
        (r.1, r.2 + 1)

/-- `retry_with_backoff(func, config)`: run the attempt loop over
`0 … max_retries`. -/
def retry_with_backoff (cfg : RetryConfig) (work : Nat → Except PyError α) :
    RetryResult α × Nat :=
  retryLoop cfg work (List.range (cfg.max_retries + 1)) none

/-- `ClientCircuitState`. -/
inductive CircuitState where
  | closed
  | open
  | halfOpen
deriving DecidableEq

/-- `ClientCircuitBreaker`'s configuration and mutable state (the lock is
not modelled: every transition is already atomic here). -/
structure ClientCircuitBreaker where
  failure_threshold : Nat := 5
  recovery_timeout : Int := 30
  success_threshold : Nat := 2
  state : CircuitState := .closed
  failureCount : Nat := 0
  successCount : Nat := 0
  openedAt : Int := 0
deriving DecidableEq

/-- A freshly constructed breaker (all defaults). -/
def mkBreaker : ClientCircuitBreaker := {}

/-- What `before_request` does: pass, or raise a `ConnectionError` carrying
the remaining cool-down. -/
inductive BeforeResult where
  | pass
  | failFast (remaining : Int)
deriving DecidableEq

/-- `ClientCircuitBreaker.before_request`: closed passes; open passes into
half-open once `recovery_timeout` has elapsed since `openedAt` and otherwise
fail-fasts with the remaining cool-down; half-open passes. -/
def ClientCircuitBreaker.before_request (b : ClientCircuitBreaker) (now : Int) :
    BeforeResult × ClientCircuitBreaker :=
  if b.state = .closed then (.pass, b)
  else if b.state = .open then
    if now - b.openedAt ≥ b.recovery_timeout then
      (.pass, { b with state := .halfOpen, successCount := 0 })
    else
      (.failFast (b.recovery_timeout - (now - b.openedAt)), b)
  else (.pass, b)

/-- `ClientCircuitBreaker.on_success`: in half-open, count successes and
close (resetting the failure count) at `success_threshold`; otherwise reset
the failure count. -/
def ClientCircuitBreaker.on_success (b : ClientCircuitBreaker) : ClientCircuitBreaker :=
  if b.state = .halfOpen then
    if b.successCount + 1 ≥ b.success_threshold then
      { b with successCount := b.successCount + 1, state := .closed, failureCount := 0 }
    else
      { b with successCount := b.successCount + 1 }
  else
    { b with failureCount := 0 }

/-- `ClientCircuitBreaker.on_failure`: count the failure; half-open reopens
immediately, otherwise the breaker opens when the count reaches
`failure_threshold`; `openedAt` records the failure's time. -/
def ClientCircuitBreaker.on_failure (b : ClientCircuitBreaker) (now : Int) :
    ClientCircuitBreaker :=
  if b.state = .halfOpen then
    { b with failureCount := b.failureCount + 1, state := .open, openedAt := now }
  else if b.failureCount + 1 ≥ b.failure_threshold then
    { b with failureCount := b.failureCount + 1, state := .open, openedAt := now }
  else
    { b with failureCount := b.failureCount + 1 }

/-! ### The resolver client (`src/moniker_client/client.py`, `MonikerClient`) -/

/-- `ResolvedSource` (the dataclass), Python dict fields as `PyVal` maps. -/
structure ResolvedSource where
  moniker : String
  path : String
  source_type : String
  connection : List (String × PyVal) := []
  query : Option String := none
  params : List (String × PyVal) := []
  schema_info : Option PyVal := none
  read_only : Bool := true
  ownership : List (String × PyVal) := []
  binding_path : String := ""
  sub_path : Option String := none
  status : Option String := none
  deprecation_message : Option String := none
  successor : Option String := none
  sunset_deadline : Option String := none
  migration_guide_url : Option String := none
  redirected_from : Option String := none

/-- `ResolvedSource.is_deprecated`. -/
def ResolvedSource.is_deprecated (rs : ResolvedSource) : Bool :=
  rs.status = some "deprecated"

/-- The slice of `ClientConfig` the checked properties observe.  The
callback is modelled by its presence plus the recorded invocations. -/
structure ClientConfig where
  cache_ttl : Int := 60
  deprecation_enabled : Bool := false
  warn_on_deprecated : Bool := true
  has_deprecation_callback : Bool := false
  retry : RetryConfig := {}

/-- One scripted response of `GET /resolve/{path}`: a parsed 200 body, a
404, another non-200 status, or a transport-level exception of the given
type name. -/
inductive ResolveResponse where
  | ok (rs : ResolvedSource)
  | notFound
  | httpError (status : Nat) (text : String)
  | transport (typeName : String)

/-- `_do_resolve` on one attempt: 404 raises `NotFoundError`, any other
non-200 raises `ResolutionError` (neither carries a response attribute the
retry classifier could read), transport failures raise with their own type
name. -/
def respToExcept : ResolveResponse → Except PyError ResolvedSource
  | .ok rs => .ok rs
  | .notFound => .error ⟨"NotFoundError", none⟩
  | .httpError _ _ => .error ⟨"ResolutionError", none⟩
  | .transport n => .error ⟨n, none⟩

/-- The client's `_cache`: moniker URI → (binding, insertion time).  A dict;
lookup takes the newest binding of the key. -/
def cacheLookup (cache : List (String × ResolvedSource × Int)) (k : String) :
    Option (ResolvedSource × Int) :=
  (cache.find? (fun e => e.1 = k)).map (·.2)

/-- Dict update of the cache (`self._cache[moniker] = (resolved, time)`). -/
def cacheInsert (cache : List (String × ResolvedSource × Int)) (k : String)
    (v : ResolvedSource × Int) : List (String × ResolvedSource × Int) :=
  (k, v.1, v.2) :: cache.filter (fun e => ¬ e.1 = k)

/-- The shared mutable state of one `MonikerClient`: resolution cache and
circuit breaker. -/
structure ClientState where
  cache : List (String × ResolvedSource × Int) := []
  breaker : ClientCircuitBreaker := {}

/-- The deprecation warning message `_resolve` / `batch_resolve` build
(empty deprecation message or successor strings are falsy and omitted). -/
def deprecationMsg (rs : ResolvedSource) : String :=
  "Moniker '" ++ rs.path ++ "' is deprecated."
  ++ (match rs.deprecation_message with
      | some m => if m = "" then "" else " " ++ m
      | none => "")
  ++ (match rs.successor with
      | some s => if s = "" then "" else " Successor: " ++ s
      | none => "")

/-- The warnings emitted and callbacks invoked for one freshly resolved
binding: one warning (and one callback invocation when a callback is
configured) iff deprecation is enabled, the binding is deprecated and
`warn_on_deprecated` holds. -/
def warnEvents (cfg : ClientConfig) (rs : ResolvedSource) :
    List String × List (String × Option String × Option String) :=
  if cfg.deprecation_enabled ∧ rs.is_deprecated ∧ cfg.warn_on_deprecated then
    ([deprecationMsg rs],
     if cfg.has_deprecation_callback then
       [(rs.path, rs.deprecation_message, rs.successor)]
     else [])
  else ([], [])

/-- How one `_resolve` call ends. -/
inductive ResolveOutcome where
  | ok (rs : ResolvedSource)
  | notFound
  | resolutionError
  | transportError (typeName : String)
  | retriesExhausted
  | circuitOpen (remaining : Int)

/-- Everything observable about one `_resolve` call: its outcome, the
client state it leaves, the number of `GET /resolve/{path}` requests it
issued, and the warning / callback events it emitted. -/
structure ResolveRun where
  outcome : ResolveOutcome
  finalState : ClientState
  gets : Nat
  warnings : List String
  callbackCalls : List (String × Option String × Option String)

/-- The cache consultation at the head of `_resolve`: a binding only when
`cache_ttl > 0`, the key is present and the entry is still live. -/
def cacheLive (cfg : ClientConfig) (st : ClientState) (now : Int) (moniker : String) :
    Option ResolvedSource :=
  if cfg.cache_ttl > 0 then
    match cacheLookup st.cache moniker with
    | some (rs, cachedAt) => if now - cachedAt < cfg.cache_ttl then some rs else none
    | none => none
  else none

/-- `_resolve` past the cache: breaker check, retry-wrapped GET, then
deprecation warnings, cache write and breaker bookkeeping.  `ε` scripts the
attempts' responses. -/
def resolveFresh (cfg : ClientConfig) (st : ClientState) (now : Int) (moniker : String)
    (ε : Nat → ResolveResponse) : ResolveRun :=
  match st.breaker.before_request now with
  | (.failFast rem, b') => ⟨.circuitOpen rem, ⟨st.cache, b'⟩, 0, [], []⟩
  | (.pass, b') =>
    match retry_with_backoff cfg.retry (fun i => respToExcept (ε i)) with
    | (.ok rs, n) =>
      let ev := warnEvents cfg rs
      let cache' := if cfg.cache_ttl > 0 then cacheInsert st.cache moniker (rs, now) else st.cache
      ⟨.ok rs, ⟨cache', b'.on_success⟩, n, ev.1, ev.2⟩
    | (.raised e, n) =>
      if e.typeName = "NotFoundError" then
        ⟨.notFound, ⟨st.cache, b'⟩, n, [], []⟩
      else if e.typeName = "ResolutionError" then
        ⟨.resolutionError, ⟨st.cache, b'.on_failure now⟩, n, [], []⟩
      else
        ⟨.transportError e.typeName, ⟨st.cache, b'.on_failure now⟩, n, [], []⟩
    | (.exhausted _, n) =>
      ⟨.retriesExhausted, ⟨st.cache, b'.on_failure now⟩, n, [], []⟩

/-- `MonikerClient._resolve`: a live cache entry answers with zero GETs,
otherwise resolve freshly. -/
def client_resolve (cfg : ClientConfig) (st : ClientState) (now : Int) (moniker : String)
    (ε : Nat → ResolveResponse) : ResolveRun :=
  match cacheLive cfg st now moniker with
  | some rs => ⟨.ok rs, st, 0, [], []⟩
  | none => resolveFresh cfg st now moniker ε

/-- The URI normalization of `resolve` / `read`: prepend the scheme when
absent. -/
def resolveKey (moniker : String) : String :=
  if pyStartsWith monikerScheme moniker then moniker else monikerScheme ++ moniker

/-! ### `MonikerClient.read` -/

/-- How one `read` call ends: data, an unwrapped `NotFoundError`, or a
`FetchError` wrapping the underlying error (identified by its type name). -/
inductive ReadOutcome where
  | ok (data : PyVal)
  | notFound
  | fetchError (causeType : String)

/-- Everything observable about one `read` call. -/
structure ReadRun where
  outcome : ReadOutcome
  finalState : ClientState
  gets : Nat
  warnings : List String
  callbackCalls : List (String × Option String × Option String)

/-- The error classification of `read`'s `try`/`except` ladder applied to
the resolution outcome and (after a successful resolution) to the adapter
fetch. -/
def readClassify (fetch : ResolvedSource → Except PyError PyVal) :
    ResolveOutcome → ReadOutcome
  | .ok rs =>
    match fetch rs with
    | .ok d => .ok d
    | .error e => if e.typeName = "NotFoundError" then .notFound else .fetchError e.typeName
  | .notFound => .notFound
  | .resolutionError => .fetchError "ResolutionError"
  | .transportError n => .fetchError n
  | .retriesExhausted => .fetchError "RetryExhausted"
  | .circuitOpen _ => .fetchError "ConnectionError"

/-- `MonikerClient.read`: normalize, `_resolve`, dispatch the adapter fetch
(abstracted as `fetch`), and classify errors: `NotFoundError` — whether
from resolution or from the adapter — propagates unwrapped; every other
exception is wrapped in `FetchError` with the underlying error as cause.
Telemetry is fire-and-forget and not modelled. -/
def client_read (cfg : ClientConfig) (st : ClientState) (now : Int) (moniker : String)
    (ε : Nat → ResolveResponse) (fetch : ResolvedSource → Except PyError PyVal) : ReadRun :=
  ⟨readClassify fetch (client_resolve cfg st now (resolveKey moniker) ε).outcome,
   (client_resolve cfg st now (resolveKey moniker) ε).finalState,
   (client_resolve cfg st now (resolveKey moniker) ε).gets,
   (client_resolve cfg st now (resolveKey moniker) ε).warnings,
   (client_resolve cfg st now (resolveKey moniker) ε).callbackCalls⟩

/-! ### `MonikerClient.batch_resolve` -/

/-- One scripted response of `POST /resolve/batch`: the parsed result items,
a non-2xx status (`raise_for_status` raises `HTTPStatusError`), or a
transport failure. -/
inductive BatchResponse where
  | ok (items : List ResolvedSource)
  | httpError (status : Nat)
  | transport (typeName : String)

/-- Everything observable about one `batch_resolve` call: the results map
(path → binding), the raised exception if any, the final client state, the
number of POSTs, and the warning / callback events. -/
structure BatchRun where
  results : List (String × ResolvedSource)
  raised : Option PyError
  finalState : ClientState
  posts : Nat
  warnings : List String
  callbackCalls : List (String × Option String × Option String)

/-- Insert into the results dict (overwrite in place, append when new). -/
def resultsSet (d : List (String × ResolvedSource)) (k : String) (v : ResolvedSource) :
    List (String × ResolvedSource) :=
  if d.any (fun kv => kv.1 = k) then
    d.map (fun kv => if kv.1 = k then (k, v) else kv)
  else d ++ [(k, v)]

/-- Python `s.replace("moniker://", "")` for a string that can carry the
scheme at most as a prefix (the only shape the client builds). -/
def stripScheme (m : String) : String :=
  if pyStartsWith monikerScheme m then strDrop m (strLen monikerScheme) else m

/-- The per-item body of `batch_resolve`'s result loop: record the binding,
emit its deprecation events, write the cache entry. -/
def batchItemStep (cfg : ClientConfig) (now : Int)
    (acc : List (String × ResolvedSource) × List (String × ResolvedSource × Int)
      × List String × List (String × Option String × Option String))
    (rs : ResolvedSource) :
    List (String × ResolvedSource) × List (String × ResolvedSource × Int)
      × List String × List (String × Option String × Option String) :=
  (resultsSet acc.1 rs.path rs,
   if cfg.cache_ttl > 0 then cacheInsert acc.2.1 ("moniker://" ++ rs.path) (rs, now)
   else acc.2.1,
   acc.2.2.1 ++ (warnEvents cfg rs).1,
   acc.2.2.2 ++ (warnEvents cfg rs).2)

/-- The cache-consultation loop at the head of `batch_resolve`: the results
answered from live cache entries, and the monikers still to resolve. -/
def batchPartition (cfg : ClientConfig) (st : ClientState) (now : Int)
    (monikers : List String) : List (String × ResolvedSource) × List String :=
  (monikers.map resolveKey).foldl
    (fun (acc : List (String × ResolvedSource) × List String) m =>
      match cacheLive cfg st now m with
      | some rs => (resultsSet acc.1 (stripScheme m) rs, acc.2)
      | none => (acc.1, acc.2 ++ [m]))
    ([], [])

/-- `MonikerClient.batch_resolve`: read live entries from the cache, and
when uncached monikers remain, take the breaker token and POST once; every
exception of the POST — a 404 included — is counted as a breaker failure
and re-raised. -/
def client_batch_resolve (cfg : ClientConfig) (st : ClientState) (now : Int)
    (monikers : List String) (resp : BatchResponse) : BatchRun :=
  if (batchPartition cfg st now monikers).2.isEmpty then
    ⟨(batchPartition cfg st now monikers).1, none, st, 0, [], []⟩
  else
    match st.breaker.before_request now with
    | (.failFast _, b') =>
      ⟨(batchPartition cfg st now monikers).1, some ⟨"ConnectionError", none⟩,
       ⟨st.cache, b'⟩, 0, [], []⟩
    | (.pass, b') =>
      match resp with
      | .ok items =>
        ⟨(items.foldl (batchItemStep cfg now)
            ((batchPartition cfg st now monikers).1, st.cache, [], [])).1,
         none,
         ⟨(items.foldl (batchItemStep cfg now)
             ((batchPartition cfg st now monikers).1, st.cache, [], [])).2.1,
          b'.on_success⟩,
         1,
         (items.foldl (batchItemStep cfg now)
            ((batchPartition cfg st now monikers).1, st.cache, [], [])).2.2.1,
         (items.foldl (batchItemStep cfg now)
            ((batchPartition cfg st now monikers).1, st.cache, [], [])).2.2.2⟩
      | .httpError status =>
        ⟨(batchPartition cfg st now monikers).1, some ⟨"HTTPStatusError", some status⟩,
         ⟨st.cache, b'.on_failure now⟩, 1, [], []⟩
      | .transport n =>
        ⟨(batchPartition cfg st now monikers).1, some ⟨n, none⟩,
         ⟨st.cache, b'.on_failure now⟩, 1, [], []⟩

/-! ### Helper lemmas: the circuit breaker -/

/-- `on_failure` leaves the configuration fields alone and counts one more
failure. -/
theorem on_failure_fields (b : ClientCircuitBreaker) (t : Int) :
    (b.on_failure t).failure_threshold = b.failure_threshold ∧
    (b.on_failure t).recovery_timeout = b.recovery_timeout ∧
    (b.on_failure t).success_threshold = b.success_threshold ∧
    (b.on_failure t).failureCount = b.failureCount + 1 := by
  unfold ClientCircuitBreaker.on_failure
  by_cases h1 : b.state = CircuitState.halfOpen
  · rw [if_pos h1]; exact ⟨rfl, rfl, rfl, rfl⟩
  · rw [if_neg h1]
    by_cases h2 : b.failureCount + 1 ≥ b.failure_threshold
    · rw [if_pos h2]; exact ⟨rfl, rfl, rfl, rfl⟩
    · rw [if_neg h2]; exact ⟨rfl, rfl, rfl, rfl⟩

/-- From a closed or open breaker, `on_failure` lands in a closed or open
state again. -/
theorem on_failure_state (b : ClientCircuitBreaker) (t : Int)
    (h : b.state = .closed ∨ b.state = .open) :
    (b.on_failure t).state = .closed ∨ (b.on_failure t).state = .open := by
  have hno : ¬ b.state = CircuitState.halfOpen := by
    rcases h with h | h <;> simp [h]
  unfold ClientCircuitBreaker.on_failure
  rw [if_neg hno]
  by_cases h2 : b.failureCount + 1 ≥ b.failure_threshold
  · rw [if_pos h2]; right; rfl
  · rw [if_neg h2]
    rcases h with h | h
    · left; exact h
    · right; exact h

/-- Folding `on_failure` over a list of failure times keeps the breaker
closed or open, preserves the configuration, and adds one failure per
element. -/
theorem foldl_on_failure_invariant (ts : List Int) (b : ClientCircuitBreaker)
    (h : b.state = .closed ∨ b.state = .open) :
    ((ts.foldl ClientCircuitBreaker.on_failure b).state = .closed ∨
      (ts.foldl ClientCircuitBreaker.on_failure b).state = .open) ∧
    (ts.foldl ClientCircuitBreaker.on_failure b).failureCount
      = b.failureCount + ts.length ∧
    (ts.foldl ClientCircuitBreaker.on_failure b).failure_threshold
      = b.failure_threshold ∧
    (ts.foldl ClientCircuitBreaker.on_failure b).recovery_timeout
      = b.recovery_timeout ∧
    (ts.foldl ClientCircuitBreaker.on_failure b).success_threshold
      = b.success_threshold := by
  induction ts generalizing b with
  | nil => exact ⟨h, by simp, rfl, rfl, rfl⟩
  | cons t rest ih =>
    have hf := on_failure_fields b t
    have hs := on_failure_state b t h
    have hrec := ih (b.on_failure t) hs
    refine ⟨hrec.1, ?_, ?_, ?_, ?_⟩
    · rw [List.foldl_cons, hrec.2.1, hf.2.2.2]
      simp only [List.length_cons]
      omega
    · rw [List.foldl_cons, hrec.2.2.1, hf.1]
    · rw [List.foldl_cons, hrec.2.2.2.1, hf.2.1]
    · rw [List.foldl_cons, hrec.2.2.2.2, hf.2.2.1]

/-- A failure that brings the count to the threshold opens a closed or open
breaker and stamps `openedAt` with the failure's time. -/
theorem on_failure_opens (b : ClientCircuitBreaker) (t : Int)
    (h : b.state = .closed ∨ b.state = .open)
    (hc : b.failureCount + 1 ≥ b.failure_threshold) :
    (b.on_failure t).state = .open ∧ (b.on_failure t).openedAt = t ∧
    (b.on_failure t).recovery_timeout = b.recovery_timeout ∧
    (b.on_failure t).failure_threshold = b.failure_threshold ∧
    (b.on_failure t).success_threshold = b.success_threshold := by
  have hno : ¬ b.state = CircuitState.halfOpen := by
    rcases h with h | h <;> simp [h]
  unfold ClientCircuitBreaker.on_failure
  rw [if_neg hno, if_pos hc]
  exact ⟨rfl, rfl, rfl, rfl, rfl⟩

/-- Folding `failure_threshold` many failures (counted from any closed
breaker) ends open with `openedAt` equal to the last failure's time. -/
theorem opens_after_threshold (b : ClientCircuitBreaker) (ts : List Int) (tn : Int)
    (hb : b.state = .closed)
    (hlen : (ts ++ [tn]).length = b.failure_threshold) :
    ((ts ++ [tn]).foldl ClientCircuitBreaker.on_failure b).state = .open ∧
    ((ts ++ [tn]).foldl ClientCircuitBreaker.on_failure b).openedAt = tn ∧
    ((ts ++ [tn]).foldl ClientCircuitBreaker.on_failure b).recovery_timeout
      = b.recovery_timeout := by
  rw [List.foldl_append]
  have hinv := foldl_on_failure_invariant ts b (Or.inl hb)
  set b1 := ts.foldl ClientCircuitBreaker.on_failure b with hb1
  simp only [List.foldl_cons, List.foldl_nil]
  have hthr : b1.failureCount + 1 ≥ b1.failure_threshold := by
    rw [hinv.2.1, hinv.2.2.1]
    simp only [List.length_append, List.length_cons, List.length_nil] at hlen
    omega
  have ho := on_failure_opens b1 tn hinv.1 hthr
  exact ⟨ho.1, ho.2.1, ho.2.2.1.trans hinv.2.2.2.1⟩

/-- Folding fewer failures than the distance to the threshold into a closed
breaker keeps it closed (and counts them). -/
theorem stays_closed_below_threshold (ts : List Int) (b : ClientCircuitBreaker)
    (hb : b.state = .closed)
    (h : b.failureCount + ts.length < b.failure_threshold) :
    (ts.foldl ClientCircuitBreaker.on_failure b).state = .closed ∧
    (ts.foldl ClientCircuitBreaker.on_failure b).failureCount
      = b.failureCount + ts.length := by
  induction ts generalizing b with
  | nil => exact ⟨hb, by simp⟩
  | cons t rest ih =>
    have hf := on_failure_fields b t
    have hno : ¬ b.state = CircuitState.halfOpen := by simp [hb]
    have hlt : ¬ b.failureCount + 1 ≥ b.failure_threshold := by
      simp only [List.length_cons] at h
      omega
    have hstep : (b.on_failure t).state = CircuitState.closed := by
      unfold ClientCircuitBreaker.on_failure
      rw [if_neg hno, if_neg hlt]
      exact hb
    have hrec := ih (b.on_failure t) hstep
      (by rw [hf.2.2.2, hf.1]; simp only [List.length_cons] at h ⊢; omega)
    rw [List.foldl_cons]
    refine ⟨hrec.1, ?_⟩
    rw [hrec.2, hf.2.2.2]
    simp only [List.length_cons]
    omega

/-! ### Claims about the circuit breaker -/

/-- C2.  Circuit breaker opening and recovery: from a Closed breaker,
`failure_threshold` consecutive (non-404, hence `on_failure`-recorded)
resolver failures leave the breaker Open with `openedAt` the last failure's
time; until `recovery_timeout` has elapsed since then, every
`before_request` fail-fasts with a connection-refused-style failure carrying
the remaining cool-down and leaves the breaker unchanged; the first
`before_request` at or after `recovery_timeout` passes and moves the breaker
to HalfOpen. -/
theorem claim2_breaker_open_and_recovery (b : ClientCircuitBreaker)
    (ts : List Int) (tn : Int)
    (hb : b.state = .closed)
    (hlen : (ts ++ [tn]).length = b.failure_threshold) :
    ((ts ++ [tn]).foldl ClientCircuitBreaker.on_failure b).state = .open ∧
    ((ts ++ [tn]).foldl ClientCircuitBreaker.on_failure b).openedAt = tn ∧
    (∀ t : Int, t - tn < b.recovery_timeout →
      ((ts ++ [tn]).foldl ClientCircuitBreaker.on_failure b).before_request t
        = (.failFast (b.recovery_timeout - (t - tn)),
           (ts ++ [tn]).foldl ClientCircuitBreaker.on_failure b)) ∧
    (∀ t : Int, b.recovery_timeout ≤ t - tn →
      ((ts ++ [tn]).foldl ClientCircuitBreaker.on_failure b).before_request t
        = (.pass, { (ts ++ [tn]).foldl ClientCircuitBreaker.on_failure b with
                      state := CircuitState.halfOpen, successCount := 0 })) := by
  obtain ⟨hopen, hat, hrec⟩ := opens_after_threshold b ts tn hb hlen
  set b1 := (ts ++ [tn]).foldl ClientCircuitBreaker.on_failure b with hb1
  have hnotc : ¬ b1.state = CircuitState.closed := by rw [hopen]; simp
  refine ⟨hopen, hat, ?_, ?_⟩
  · intro t ht
    have hlt : ¬ (t - b1.openedAt ≥ b1.recovery_timeout) := by
      rw [hat, hrec]; omega
    unfold ClientCircuitBreaker.before_request
    rw [if_neg hnotc, if_pos hopen, if_neg hlt, hat, hrec]
  · intro t ht
    have hge : t - b1.openedAt ≥ b1.recovery_timeout := by
      rw [hat, hrec]; omega
    unfold ClientCircuitBreaker.before_request
    rw [if_neg hnotc, if_pos hopen, if_pos hge]

/-- C2 witness: the default breaker (threshold 5, recovery 30) opened by
failures at times 1…5; at time 20 it fail-fasts with 15 s remaining, at
time 35 it passes into HalfOpen. -/
theorem claim2_witness :
    (([1, 2, 3, 4] ++ [5] : List Int).foldl ClientCircuitBreaker.on_failure mkBreaker).state
        = .open ∧
    (([1, 2, 3, 4] ++ [5] : List Int).foldl ClientCircuitBreaker.on_failure mkBreaker).before_request 20
        = (.failFast 15,
           ([1, 2, 3, 4] ++ [5] : List Int).foldl ClientCircuitBreaker.on_failure mkBreaker) ∧
    (([1, 2, 3, 4] ++ [5] : List Int).foldl ClientCircuitBreaker.on_failure mkBreaker).before_request 35
        = (.pass, { ([1, 2, 3, 4] ++ [5] : List Int).foldl ClientCircuitBreaker.on_failure mkBreaker with
                      state := CircuitState.halfOpen, successCount := 0 }) := by
  have h := claim2_breaker_open_and_recovery mkBreaker [1, 2, 3, 4] 5 (by rfl) (by rfl)
  refine ⟨h.1, ?_, ?_⟩
  · have := h.2.2.1 20 (by decide)
    simpa using this
  · have := h.2.2.2 35 (by decide)
    simpa using this

/-- C10.  When `on_success` closes a half-open breaker (the
`success_threshold`-th consecutive success), the failure count is reset to
zero; consequently, from the recovered breaker it takes a full
`failure_threshold` of fresh consecutive failures to reopen: any shorter
run leaves it Closed, and exactly `failure_threshold` failures reopen it. -/
theorem claim10_recovery_resets_failures (b : ClientCircuitBreaker)
    (hb : b.state = .halfOpen)
    (hs : b.successCount + 1 ≥ b.success_threshold) :
    b.on_success.state = .closed ∧
    b.on_success.failureCount = 0 ∧
    (∀ ts : List Int, ts.length < b.on_success.failure_threshold →
      (ts.foldl ClientCircuitBreaker.on_failure b.on_success).state = .closed) ∧
    (∀ (ts : List Int) (tn : Int),
      (ts ++ [tn]).length = b.on_success.failure_threshold →
      ((ts ++ [tn]).foldl ClientCircuitBreaker.on_failure b.on_success).state = .open) := by
  have hclosed : b.on_success.state = CircuitState.closed ∧ b.on_success.failureCount = 0 := by
    unfold ClientCircuitBreaker.on_success
    rw [if_pos hb, if_pos hs]
    exact ⟨rfl, rfl⟩
  refine ⟨hclosed.1, hclosed.2, ?_, ?_⟩
  · intro ts hlt
    exact (stays_closed_below_threshold ts b.on_success hclosed.1
      (by rw [hclosed.2]; simpa using hlt)).1
  · intro ts tn hlen
    exact (opens_after_threshold b.on_success ts tn hclosed.1 hlen).1

/-- C10 witness: a half-open breaker one success away from recovery closes
with failure count 0; four fresh failures keep it closed, a fifth reopens
it. -/
theorem claim10_witness :
    ({ state := .halfOpen, failureCount := 7, successCount := 1, openedAt := 5 }
        : ClientCircuitBreaker).on_success.state = .closed ∧
    ({ state := .halfOpen, failureCount := 7, successCount := 1, openedAt := 5 }
        : ClientCircuitBreaker).on_success.failureCount = 0 ∧
    (([11, 12, 13, 14] : List Int).foldl ClientCircuitBreaker.on_failure
      ({ state := .halfOpen, failureCount := 7, successCount := 1, openedAt := 5 }
        : ClientCircuitBreaker).on_success).state = .closed ∧
    (([11, 12, 13, 14] ++ [15] : List Int).foldl ClientCircuitBreaker.on_failure
      ({ state := .halfOpen, failureCount := 7, successCount := 1, openedAt := 5 }
        : ClientCircuitBreaker).on_success).state = .open := by
  have h := claim10_recovery_resets_failures
    ({ state := .halfOpen, failureCount := 7, successCount := 1, openedAt := 5 }
      : ClientCircuitBreaker) (by rfl) (by decide)
  exact ⟨h.1, h.2.1, h.2.2.1 [11, 12, 13, 14] (by decide), h.2.2.2 [11, 12, 13, 14] 15 (by decide)⟩

/-! ### Claims about the retry engine and the query rewriting -/

/-- C4.  Retry exhaustion (code bug): with the default configuration, a work
function that fails every invocation with a retryable `ConnectionError` is
invoked `max_retries + 1 = 4` times, after which `retry_with_backoff`
re-raises the underlying `ConnectionError` itself (`.raised`) instead of the
`RetryExhausted` (`.exhausted`) its own docstring promises — the
`raise RetryExhausted` after the loop is unreachable, because the loop
re-raises at `attempt == max_retries`. -/
theorem claim4_retry_exhaustion_bug :
    isRetryable {} ⟨"ConnectionError", none⟩ = true ∧
    retry_with_backoff (α := Unit) {} (fun _ => .error ⟨"ConnectionError", none⟩)
      = (.raised ⟨"ConnectionError", none⟩, 4) ∧
    retry_with_backoff (α := Unit) {} (fun _ => .error ⟨"ConnectionError", none⟩)
      ≠ (.exhausted (some ⟨"ConnectionError", none⟩), 4) := by
  refine ⟨rfl, rfl, ?_⟩
  intro h
  cases h

/-- C8.  Empty-sequence filter (code bug): `_extract_filters` keeps a filter
whose value is the empty list (it is not `None`), and `_inject_where_clause`
renders it as a vacuous `IN ()` clause, so the rewritten query contains
`regions IN ()` — the spec requires the filter to be dropped and no `IN ()`
to be emitted. -/
theorem claim8_empty_filter_bug :
    extract_filters [("regions", .vlist [])] = [("regions", .vlist [])] ∧
    build_query (some "SELECT * FROM t") [("regions", .vlist [])]
      = .ok (some "SELECT * FROM t WHERE regions IN ()") ∧
    pyIn "IN ()" "SELECT * FROM t WHERE regions IN ()" = true := by
  exact ⟨rfl, rfl, by decide⟩

/-- C7 counterexample: with the single filter `dept_id = 10` (no temporal
parameter, no limit), one rewriting pass appends `WHERE dept_id = 10` and a
second pass over the result appends the same condition again, so running
the rewriting twice differs from running it once even after erasing all
whitespace. -/
theorem claim7_counterexample :
    build_query (some "SELECT * FROM employees") [("dept_id", .vint 10)]
      = .ok (some "SELECT * FROM employees WHERE dept_id = 10") ∧
    build_query (some "SELECT * FROM employees WHERE dept_id = 10")
        [("dept_id", .vint 10)]
      = .ok (some "SELECT * FROM employees WHERE dept_id = 10 AND dept_id = 10") ∧
    stripSpaces "SELECT * FROM employees WHERE dept_id = 10 AND dept_id = 10"
      ≠ stripSpaces "SELECT * FROM employees WHERE dept_id = 10" := by
  refine ⟨rfl, rfl, ?_⟩
  decide

/-- The limit pass marks its own output: the appended clause contains the
`FETCH ` token the guard looks for. -/
theorem inject_limit_output_has_fetch (q lim : String)
    (h : pyIn "FETCH " (pyUpper q) = false) :
    pyIn "FETCH " (pyUpper (inject_limit q lim)) = true := by
  have hil : inject_limit q lim
      = pyRstrip wsChars (pyRstrip [';'] q) ++ " FETCH FIRST " ++ lim ++ " ROWS ONLY" := by
    unfold inject_limit
    rw [h]
    rfl
  rw [hil]
  apply decide_eq_true
  have h1 : "FETCH ".data <:+: (" FETCH FIRST ".data.map Char.toUpper) := by decide
  have hdata : (pyUpper (pyRstrip wsChars (pyRstrip [';'] q) ++ " FETCH FIRST " ++ lim
        ++ " ROWS ONLY")).data
      = (pyUpper (pyRstrip wsChars (pyRstrip [';'] q))).data
        ++ " FETCH FIRST ".data.map Char.toUpper
        ++ (lim.data.map Char.toUpper ++ " ROWS ONLY".data.map Char.toUpper) := by
    simp [pyUpper, String.data_append, List.map_append, List.append_assoc]
  rw [hdata]
  exact h1.trans (List.infix_append _ _ _)

/-- C7 (amended).  The full rewriting pass is not idempotent — the temporal
and filter passes re-inject their clauses, as the counterexample shows.
What does hold: the limit-injection pass alone is idempotent (its `FETCH `
guard recognizes its own output), and the full pass with an empty parameter
map is the identity on a non-empty query, hence idempotent. -/
theorem claim7_rewrite_idempotence :
    (∀ q lim : String, inject_limit (inject_limit q lim) lim = inject_limit q lim) ∧
    (∀ q : String, q ≠ "" → build_query (some q) [] = .ok (some q)) := by
  constructor
  · intro q lim
    by_cases h : pyIn "FETCH " (pyUpper q) = true
    · have hq : inject_limit q lim = q := by
        unfold inject_limit
        rw [h]
        rfl
      rw [hq, hq]
    · have h' : pyIn "FETCH " (pyUpper q) = false := Bool.eq_false_iff.mpr h
      have hmark := inject_limit_output_has_fetch q lim h'
      set A := inject_limit q lim with hA
      unfold inject_limit
      rw [hmark]
      rfl
  · intro q hq
    simp only [build_query]
    rw [if_neg hq]
    rfl

/-- C7 witness: the limit pass applied twice equals it applied once on a
concrete query, and an empty parameter map leaves a concrete query alone. -/
theorem claim7_witness :
    inject_limit (inject_limit "SELECT * FROM t" "5") "5"
      = inject_limit "SELECT * FROM t" "5" ∧
    build_query (some "SELECT 1") [] = .ok (some "SELECT 1") :=
  ⟨claim7_rewrite_idempotence.1 "SELECT * FROM t" "5",
   claim7_rewrite_idempotence.2 "SELECT 1" (by decide)⟩

/-! ### Helper lemmas: strings and path navigation -/

/-- The head surviving `dropLeadingSet` is not a dropped character. -/
theorem dropLeadingSet_head_not_bad (bad : List Char) (l : List Char) (c : Char)
    (h : (dropLeadingSet bad l).head? = some c) : c ∉ bad := by
  induction l with
  | nil => simp [dropLeadingSet] at h
  | cons x xs ih =>
    unfold dropLeadingSet at h
    by_cases hx : x ∈ bad
    · rw [if_pos hx] at h
      exact ih h
    · rw [if_neg hx] at h
      simp at h
      rwa [h] at hx

/-- `dropLeadingSet` is the identity when the head is not a dropped
character. -/
theorem dropLeadingSet_id (bad : List Char) (l : List Char)
    (h : ∀ c, l.head? = some c → c ∉ bad) : dropLeadingSet bad l = l := by
  cases l with
  | nil => rfl
  | cons x xs =>
    unfold dropLeadingSet
    rw [if_neg (h x rfl)]

/-- `dropLeadingSet` returns a suffix of its input. -/
theorem dropLeadingSet_isSfx (bad : List Char) (l : List Char) :
    dropLeadingSet bad l <:+ l := by
  induction l with
  | nil => exact List.suffix_refl _
  | cons x xs ih =>
    unfold dropLeadingSet
    by_cases hx : x ∈ bad
    · rw [if_pos hx]
      exact ih.trans (List.suffix_cons x xs)
    · rw [if_neg hx]

/-- `pyRstrip` returns a prefix of the string's characters. -/
theorem pyRstrip_data_isPre (bad : List Char) (s : String) :
    (pyRstrip bad s).data <+: s.data := by
  have h : (dropLeadingSet bad s.data.reverse).reverse.reverse <:+ s.data.reverse := by
    rw [List.reverse_reverse]
    exact dropLeadingSet_isSfx bad s.data.reverse
  exact List.reverse_suffix.mp h

/-- The head of a non-empty prefix is the head of the larger list. -/
theorem head?_of_pre {l₁ l₂ : List Char} (h : l₁ <+: l₂) (hne : l₁ ≠ []) :
    l₂.head? = l₁.head? := by
  obtain ⟨t, ht⟩ := h
  cases l₁ with
  | nil => exact absurd rfl hne
  | cons x xs => rw [← ht]; rfl

/-- A character heading the result of `pyStrip` is not a stripped one. -/
theorem pyStrip_head_not_bad (bad : List Char) (s : String) (c : Char)
    (h : (pyStrip bad s).data.head? = some c) : c ∉ bad := by
  unfold pyStrip at h
  have hpre := pyRstrip_data_isPre bad (pyLstrip bad s)
  have hne : (pyRstrip bad (pyLstrip bad s)).data ≠ [] := by
    intro hnil
    rw [hnil] at h
    cases h
  rw [← head?_of_pre hpre hne] at h
  exact dropLeadingSet_head_not_bad bad s.data c h

/-- A character ending the result of `pyStrip` is not a stripped one. -/
theorem pyStrip_last_not_bad (bad : List Char) (s : String) (c : Char)
    (h : (pyStrip bad s).data.getLast? = some c) : c ∉ bad := by
  unfold pyStrip pyRstrip at h
  rw [← List.head?_reverse, List.reverse_reverse] at h
  exact dropLeadingSet_head_not_bad bad (pyLstrip bad s).data.reverse c h

/-- `pyStrip` is the identity when neither end carries a stripped
character. -/
theorem pyStrip_id (bad : List Char) (s : String)
    (hh : ∀ c, s.data.head? = some c → c ∉ bad)
    (hl : ∀ c, s.data.getLast? = some c → c ∉ bad) :
    pyStrip bad s = s := by
  unfold pyStrip pyLstrip pyRstrip
  rw [dropLeadingSet_id bad s.data hh]
  show (⟨(dropLeadingSet bad (⟨s.data⟩ : String).data.reverse).reverse⟩ : String) = s
  have : (⟨s.data⟩ : String) = s := rfl
  rw [this]
  rw [dropLeadingSet_id bad s.data.reverse
    (fun c hc => hl c (by rwa [← List.head?_reverse]))]
  rw [List.reverse_reverse]

/-- `splitChar` never returns the empty list of segments. -/
theorem splitChar_ne_nil (sep : Char) (l : List Char) : splitChar sep l ≠ [] := by
  cases l with
  | nil => simp [splitChar]
  | cons c rest =>
    unfold splitChar
    by_cases h : c = sep
    · rw [if_pos h]; simp
    · rw [if_neg h]
      rcases hs : splitChar sep rest with _ | ⟨seg, segs⟩ <;> simp

/-- A list without the separator splits into the single segment it is. -/
theorem splitChar_no_sep (sep : Char) (l : List Char) (h : sep ∉ l) :
    splitChar sep l = [l] := by
  induction l with
  | nil => rfl
  | cons c rest ih =>
    have hcs : ¬ c = sep := by
      intro hc
      exact h (by rw [hc]; exact List.mem_cons_self _ _)
    have hrest : sep ∉ rest := fun hr => h (List.mem_cons_of_mem c hr)
    unfold splitChar
    rw [if_neg hcs, ih hrest]

/-- Splitting around a final separator-free segment appends it as one more
piece. -/
theorem splitChar_append_sep (sep : Char) (xs ys : List Char) (h : sep ∉ ys) :
    splitChar sep (xs ++ sep :: ys) = splitChar sep xs ++ [ys] := by
  induction xs with
  | nil =>
    show splitChar sep (sep :: ys) = splitChar sep [] ++ [ys]
    unfold splitChar
    rw [if_pos rfl, splitChar_no_sep sep ys h]
    rfl
  | cons c rest ih =>
    by_cases hc : c = sep
    · show splitChar sep (c :: (rest ++ sep :: ys)) = splitChar sep (c :: rest) ++ [ys]
      unfold splitChar
      rw [if_pos hc, if_pos hc, ih]
      rfl
    · show splitChar sep (c :: (rest ++ sep :: ys)) = splitChar sep (c :: rest) ++ [ys]
      unfold splitChar
      rw [if_neg hc, if_neg hc, ih]
      rcases hs : splitChar sep rest with _ | ⟨seg, segs⟩
      · exact absurd hs (splitChar_ne_nil sep rest)
      · rfl

/-- `joinChar` undoes `splitChar`. -/
theorem joinChar_splitChar (sep : Char) (l : List Char) :
    joinChar sep (splitChar sep l) = l := by
  induction l with
  | nil => rfl
  | cons c rest ih =>
    unfold splitChar
    by_cases hc : c = sep
    · rw [if_pos hc]
      rcases hs : splitChar sep rest with _ | ⟨seg, segs⟩
      · exact absurd hs (splitChar_ne_nil sep rest)
      · show joinChar sep ([] :: seg :: segs) = c :: rest
        unfold joinChar
        rw [hc]
        rw [hs] at ih
        simpa using congrArg (sep :: ·) ih
    · rw [if_neg hc]
      rcases hs : splitChar sep rest with _ | ⟨seg, segs⟩
      · exact absurd hs (splitChar_ne_nil sep rest)
      · rw [hs] at ih
        rcases segs with _ | ⟨z, zs⟩
        · show joinChar sep [c :: seg] = c :: rest
          unfold joinChar
          show c :: seg = c :: rest
          unfold joinChar at ih
          rw [ih]
        · show joinChar sep ((c :: seg) :: z :: zs) = c :: rest
          show (c :: seg) ++ sep :: joinChar sep (z :: zs) = c :: rest
          have : seg ++ sep :: joinChar sep (z :: zs) = rest := ih
          simpa using this

/-- A list that heads an append either sits inside the left part or spans
it. -/
theorem pre_of_append_cases {l a b : List Char} (h : l <+: a ++ b) :
    l <+: a ∨ (a <+: l ∧ l.drop a.length <+: b) := by
  obtain ⟨t, ht⟩ := h
  by_cases hl : l.length ≤ a.length
  · left
    have htake : (a ++ b).take l.length = a.take l.length := by
      rw [List.take_append_eq_append_take, Nat.sub_eq_zero_of_le hl]
      simp
    have hself : (l ++ t).take l.length = l := List.take_left l t
    rw [ht] at hself
    rw [htake] at hself
    rw [← hself]
    exact List.take_prefix _ _
  · right
    push_neg at hl
    have htake : (a ++ b).take a.length = a := List.take_left a b
    have hlt : (l ++ t).take a.length = l.take a.length := by
      rw [List.take_append_eq_append_take, Nat.sub_eq_zero_of_le (le_of_lt hl)]
      simp
    rw [ht, htake] at hlt
    constructor
    · rw [hlt]
      exact List.take_prefix _ _
    · have hdrop : (l ++ t).drop a.length = l.drop a.length ++ t := by
        rw [List.drop_append_eq_append_drop, Nat.sub_eq_zero_of_le (le_of_lt hl)]
        simp
      have hdall : (a ++ b).drop a.length = b := List.drop_left a b
      rw [ht, hdall] at hdrop
      exact ⟨t, hdrop.symm⟩

/-- The scheme `moniker://` cannot become a prefix by gluing a clean path,
a separator and a separator-free segment together. -/
theorem scheme_not_pre_of_glue (qd sd : List Char)
    (hq : ¬ (monikerScheme.data <+: qd))
    (hlast : qd.getLast? ≠ some '/')
    (hhead : sd.head? ≠ some '/') :
    ¬ (monikerScheme.data <+: qd ++ '/' :: sd) := by
  intro h
  rcases pre_of_append_cases h with h1 | ⟨h2, h3⟩
  · exact hq h1
  · have hlen : qd.length ≤ monikerScheme.data.length := h2.length_le
    have hqd : qd = monikerScheme.data.take qd.length :=
      List.prefix_iff_eq_take.mp h2
    have hslen : monikerScheme.data.length = 10 := by decide
    by_cases h10 : qd.length = 10
    · apply hq
      rw [hqd, h10, ← hslen, List.take_length]
    · have hlt : qd.length < 10 := by omega
      have hdropne : monikerScheme.data.drop qd.length ≠ [] := by
        intro hnil
        have := congrArg List.length hnil
        simp [hslen] at this
        omega
      have hhead2 : (monikerScheme.data.drop qd.length).head? = some '/' := by
        rw [← head?_of_pre h3 hdropne]
        rfl
      have hget : (monikerScheme.data.drop qd.length).head? = monikerScheme.data[qd.length]? := by
        rw [List.head?_drop]
      rw [hget] at hhead2
      interval_cases hk : qd.length
      · exact absurd hhead2 (by decide)
      · exact absurd hhead2 (by decide)
      · exact absurd hhead2 (by decide)
      · exact absurd hhead2 (by decide)
      · exact absurd hhead2 (by decide)
      · exact absurd hhead2 (by decide)
      · exact absurd hhead2 (by decide)
      · exact absurd hhead2 (by decide)
      · -- qd.length = 8: the second scheme slash must head sd
        have hd8 : monikerScheme.data.drop 8 = ['/', '/'] := by decide
        rw [hd8] at h3
        obtain ⟨t, ht⟩ := h3
        apply hhead
        have hsd : sd = '/' :: t := by
          have h4 := congrArg List.tail ht
          simp at h4
          exact h4.symm
        rw [hsd]
        rfl
      · -- qd.length = 9: qd = "moniker:/" ends in '/'
        apply hlast
        rw [hqd]
        decide

/-- A non-empty string has non-empty character data. -/
theorem data_ne_nil_of_ne_empty (s : String) (h : s ≠ "") : s.data ≠ [] := by
  intro hd
  apply h
  have hs : s = ⟨s.data⟩ := rfl
  rw [hs, hd]

/-- `Moniker.__init__` is the identity on an already-clean path: no scheme
to strip, no separator at either end. -/
theorem normalizePath_id (q : String)
    (hsch : pyStartsWith monikerScheme q = false)
    (hh : q.data.head? ≠ some '/')
    (hl : q.data.getLast? ≠ some '/') :
    normalizePath q = q := by
  unfold normalizePath
  rw [hsch]
  simp only [Bool.false_eq_true, if_false]
  refine pyStrip_id ['/'] q ?_ ?_
  · intro c hc hmem
    simp at hmem
    rw [hmem] at hc
    exact hh hc
  · intro c hc hmem
    simp at hmem
    rw [hmem] at hc
    exact hl hc

/-- The head of the result of `pyStrip` is not a separator. -/
theorem pyStrip_head_ne (bad : List Char) (s : String) (c : Char) (hc : c ∈ bad) :
    (pyStrip bad s).data.head? ≠ some c := by
  intro h
  exact pyStrip_head_not_bad bad s c h hc

/-- The last character of the result of `pyStrip` is not a separator. -/
theorem pyStrip_last_ne (bad : List Char) (s : String) (c : Char) (hc : c ∈ bad) :
    (pyStrip bad s).data.getLast? ≠ some c := by
  intro h
  exact pyStrip_last_not_bad bad s c h hc

/-- Character data of gluing path, separator and segment. -/
theorem glue_data (q s' : String) :
    (q ++ "/" ++ s').data = q.data ++ '/' :: s'.data := by
  rw [String.data_append, String.data_append]
  simp

/-- Heads across an append with a non-empty left part. -/
theorem head?_append_left (l₁ l₂ : List Char) (h : l₁ ≠ []) :
    (l₁ ++ l₂).head? = l₁.head? :=
  head?_of_pre ⟨l₂, rfl⟩ h

/-- Last elements across an append with a non-empty right part. -/
theorem getLast?_append_right (l₁ l₂ : List Char) (h : l₂ ≠ []) :
    (l₁ ++ l₂).getLast? = l₂.getLast? := by
  rw [← List.head?_reverse, ← List.head?_reverse, List.reverse_append]
  exact head?_append_left l₂.reverse l₁.reverse (by simpa using h)

/-- `Moniker.__init__` is the identity on a freshly glued child path. -/
theorem normalizePath_glue (q s' : String)
    (hq : q ≠ "") (hs' : s' ≠ "")
    (hsch : pyStartsWith monikerScheme q = false)
    (hqh : q.data.head? ≠ some '/') (hql : q.data.getLast? ≠ some '/')
    (hsh : s'.data.head? ≠ some '/') (hsl : s'.data.getLast? ≠ some '/') :
    normalizePath (q ++ "/" ++ s') = q ++ "/" ++ s' := by
  have hqd := data_ne_nil_of_ne_empty q hq
  have hsd := data_ne_nil_of_ne_empty s' hs'
  refine normalizePath_id (q ++ "/" ++ s') ?_ ?_ ?_
  · apply decide_eq_false
    rw [glue_data]
    exact scheme_not_pre_of_glue q.data s'.data
      (fun hpre => by
        have := decide_eq_true hpre
        rw [show (decide (monikerScheme.data <+: q.data)) = pyStartsWith monikerScheme q from rfl,
          hsch] at this
        cases this)
      hql hsh
  · rw [glue_data, head?_append_left q.data ('/' :: s'.data) hqd]
    exact hqh
  · rw [glue_data, getLast?_append_right q.data ('/' :: s'.data) (by simp)]
    have : ('/' :: s'.data).getLast? = s'.data.getLast? := by
      rw [← List.head?_reverse, List.reverse_cons,
        head?_append_left s'.data.reverse ['/'] (by simpa using hsd),
        List.head?_reverse]
    rw [this]
    exact hsl

/-- C9 counterexample: with `p = "a"` and the non-empty subpath
`s = "b/c"`, `Moniker("a").child("b/c").parent()` is `Moniker("a/b")`,
whose path `"a/b"` differs from `Moniker("a").path = "a"`. -/
theorem claim9_counterexample :
    (((mkMoniker "a").child "b/c").parent).map Moniker.path = some "a/b" ∧
    ¬ ((((mkMoniker "a").child "b/c").parent).map Moniker.path
        = some (mkMoniker "a").path) := by
  constructor
  · rfl
  · intro h
    rw [show ((((mkMoniker "a").child "b/c").parent).map Moniker.path) = some "a/b" from rfl] at h
    rw [show (mkMoniker "a").path = "a" from rfl] at h
    simp at h

/-- C9 (amended).  The navigation round-trip
`Moniker(p).child(s).parent().path == Moniker(p).path` holds whenever the
normalized path of `p` is non-empty and does not itself start with the
`moniker://` scheme, and the subpath `s` is a single non-empty segment:
non-empty after separator stripping and containing no interior separator.
(The counterexample shows it fails for a multi-segment `s`; it also fails
for `s` that strips to empty or for an empty root, where `parent()` is
`None`.) -/
theorem claim9_navigation_roundtrip (p s : String)
    (hp : normalizePath p ≠ "")
    (hsch : pyStartsWith monikerScheme (normalizePath p) = false)
    (hs : pyStrip ['/'] s ≠ "")
    (hsep : '/' ∉ (pyStrip ['/'] s).data) :
    (((mkMoniker p).child s).parent).map Moniker.path = some (mkMoniker p).path := by
  set q := normalizePath p with hqdef
  set s' := pyStrip ['/'] s with hsdef
  have hqstrip : q = pyStrip ['/']
      (if pyStartsWith monikerScheme p then strDrop p (strLen monikerScheme) else p) := rfl
  have hqh : q.data.head? ≠ some '/' := by
    rw [hqstrip]; exact pyStrip_head_ne ['/'] _ '/' (by simp)
  have hql : q.data.getLast? ≠ some '/' := by
    rw [hqstrip]; exact pyStrip_last_ne ['/'] _ '/' (by simp)
  have hsh : s'.data.head? ≠ some '/' := pyStrip_head_ne ['/'] s '/' (by simp)
  have hsl : s'.data.getLast? ≠ some '/' := pyStrip_last_ne ['/'] s '/' (by simp)
  have hsd := data_ne_nil_of_ne_empty s' hs
  have hchild : ((mkMoniker p).child s).path = q ++ "/" ++ s' :=
    normalizePath_glue q s' hp hs hsch hqh hql hsh hsl
  have hin : pyIn "/" (q ++ "/" ++ s') = true := by
    apply decide_eq_true
    exact ⟨q.data, s'.data, by rw [glue_data]; simp⟩
  have hsplit : splitChar '/' (q ++ "/" ++ s').data
      = splitChar '/' q.data ++ [s'.data] := by
    rw [glue_data]
    exact splitChar_append_sep '/' q.data s'.data hsep
  have hparent : ((mkMoniker p).child s).parent
      = some (mkMoniker ⟨joinChar '/' ((splitChar '/' (q ++ "/" ++ s').data).dropLast)⟩) := by
    unfold Moniker.parent
    rw [hchild, hin]
    simp
  rw [hparent, hsplit, List.dropLast_concat, joinChar_splitChar]
  have hq : (⟨q.data⟩ : String) = q := rfl
  rw [hq]
  show some (mkMoniker q).path = some (mkMoniker p).path
  have : (mkMoniker q).path = q := normalizePath_id q hsch hqh hql
  rw [this]
  rfl

/-- C9 witness: the round-trip at `p = "risk.cvar/DESK_A"`,
`s = "/20240115/"`. -/
theorem claim9_witness :
    (((mkMoniker "risk.cvar/DESK_A").child "/20240115/").parent).map Moniker.path
      = some (mkMoniker "risk.cvar/DESK_A").path :=
  claim9_navigation_roundtrip "risk.cvar/DESK_A" "/20240115/"
    (by decide) (by decide) (by decide) (by decide)

/-! ### Helper lemmas: the resolve pipeline -/

/-- `before_request` never touches the failure count. -/
theorem before_request_keeps_failureCount (b : ClientCircuitBreaker) (now : Int) :
    ((b.before_request now).2).failureCount = b.failureCount := by
  unfold ClientCircuitBreaker.before_request
  by_cases h1 : b.state = CircuitState.closed
  · rw [if_pos h1]
  · rw [if_neg h1]
    by_cases h2 : b.state = CircuitState.open
    · rw [if_pos h2]
      by_cases h3 : now - b.openedAt ≥ b.recovery_timeout
      · rw [if_pos h3]
      · rw [if_neg h3]
    · rw [if_neg h2]

/-- A live cache entry short-circuits `_resolve`. -/
theorem client_resolve_cache_hit (cfg : ClientConfig) (st : ClientState) (now : Int)
    (m : String) (ε : Nat → ResolveResponse) (rs : ResolvedSource)
    (h : cacheLive cfg st now m = some rs) :
    client_resolve cfg st now m ε = ⟨.ok rs, st, 0, [], []⟩ := by
  unfold client_resolve
  rw [h]

/-- Without a live cache entry `_resolve` resolves freshly. -/
theorem client_resolve_cache_miss (cfg : ClientConfig) (st : ClientState) (now : Int)
    (m : String) (ε : Nat → ResolveResponse)
    (h : cacheLive cfg st now m = none) :
    client_resolve cfg st now m ε = resolveFresh cfg st now m ε := by
  unfold client_resolve
  rw [h]

/-- Complete case analysis of `resolveFresh`: fail-fast, success, 404,
other raised error, or the unreachable exhaustion, each with the exact run
it produces. -/
theorem resolveFresh_cases (cfg : ClientConfig) (st : ClientState) (now : Int)
    (m : String) (ε : Nat → ResolveResponse) :
    (∃ rem b', st.breaker.before_request now = (.failFast rem, b') ∧
      resolveFresh cfg st now m ε = ⟨.circuitOpen rem, ⟨st.cache, b'⟩, 0, [], []⟩) ∨
    (∃ b', st.breaker.before_request now = (.pass, b') ∧
      ((∃ rs n, retry_with_backoff cfg.retry (fun i => respToExcept (ε i)) = (.ok rs, n) ∧
        resolveFresh cfg st now m ε
          = ⟨.ok rs,
             ⟨if cfg.cache_ttl > 0 then cacheInsert st.cache m (rs, now) else st.cache,
              b'.on_success⟩,
             n, (warnEvents cfg rs).1, (warnEvents cfg rs).2⟩) ∨
       (∃ e n, retry_with_backoff cfg.retry (fun i => respToExcept (ε i)) = (.raised e, n) ∧
        e.typeName = "NotFoundError" ∧
        resolveFresh cfg st now m ε = ⟨.notFound, ⟨st.cache, b'⟩, n, [], []⟩) ∨
       (∃ e n, retry_with_backoff cfg.retry (fun i => respToExcept (ε i)) = (.raised e, n) ∧
        e.typeName ≠ "NotFoundError" ∧
        resolveFresh cfg st now m ε
          = ⟨if e.typeName = "ResolutionError" then .resolutionError
             else .transportError e.typeName,
             ⟨st.cache, b'.on_failure now⟩, n, [], []⟩) ∨
       (∃ last n,
        retry_with_backoff cfg.retry (fun i => respToExcept (ε i)) = (.exhausted last, n) ∧
        resolveFresh cfg st now m ε
          = ⟨.retriesExhausted, ⟨st.cache, b'.on_failure now⟩, n, [], []⟩))) := by
  rcases hbr : st.breaker.before_request now with ⟨r, b'⟩
  cases r with
  | failFast rem =>
    left
    refine ⟨rem, b', rfl, ?_⟩
    unfold resolveFresh
    rw [hbr]
  | pass =>
    right
    refine ⟨b', rfl, ?_⟩
    rcases hrt : retry_with_backoff cfg.retry (fun i => respToExcept (ε i)) with ⟨res, n⟩
    cases res with
    | ok rs =>
      left
      refine ⟨rs, n, rfl, ?_⟩
      unfold resolveFresh
      rw [hbr, hrt]
    | raised e =>
      right
      by_cases hnf : e.typeName = "NotFoundError"
      · left
        refine ⟨e, n, rfl, hnf, ?_⟩
        unfold resolveFresh
        rw [hbr, hrt]
        dsimp only
        rw [if_pos hnf]
      · right; left
        refine ⟨e, n, rfl, hnf, ?_⟩
        unfold resolveFresh
        rw [hbr, hrt]
        dsimp only
        rw [if_neg hnf]
        by_cases hre : e.typeName = "ResolutionError"
        · rw [if_pos hre, if_pos hre]
        · rw [if_neg hre, if_neg hre]
    | exhausted last =>
      right; right; right
      refine ⟨last, n, rfl, ?_⟩
      unfold resolveFresh
      rw [hbr, hrt]

/-- A retry whose first attempt ends terminally (success, or a failure the
classifier refuses to retry) makes exactly one invocation. -/
theorem retry_first_terminal (cfg : RetryConfig) (work : Nat → Except PyError α)
    (h : ∀ e, work 0 = .error e → isRetryable cfg e = false) :
    (retry_with_backoff cfg work).2 = 1 := by
  unfold retry_with_backoff
  rw [List.range_succ_eq_map]
  unfold retryLoop
  rcases hw : work 0 with e | v
  · dsimp only
    rw [if_pos (Or.inl (by rw [h e hw]; exact Bool.false_ne_true))]
  · rfl

/-- A fresh success with a positive TTL writes exactly the new cache
entry. -/
theorem cacheLive_after_insert (cfg : ClientConfig) (cache0 : List (String × ResolvedSource × Int))
    (bk : ClientCircuitBreaker) (now now' : Int) (m : String) (rs : ResolvedSource)
    (httl : 0 < cfg.cache_ttl) (hlt : now' - now < cfg.cache_ttl) :
    cacheLive cfg ⟨cacheInsert cache0 m (rs, now), bk⟩ now' m = some rs := by
  unfold cacheLive cacheLookup cacheInsert
  rw [if_pos httl]
  rw [List.find?_cons_of_pos _ (by simp)]
  dsimp only [Option.map_some']
  rw [if_pos hlt]

/-! ### Concrete fixtures for the claims about the client -/

/-- A plain binding for `moniker://a/b`. -/
def rsA : ResolvedSource :=
  { moniker := "moniker://a/b", path := "a/b", source_type := "rest" }

/-- A deprecated binding for `moniker://a/b` with message and successor. -/
def rsDep : ResolvedSource :=
  { moniker := "moniker://a/b", path := "a/b", source_type := "rest",
    status := some "deprecated", deprecation_message := some "use new.path",
    successor := some "new/path" }

/-- A configuration with a 10-second resolution cache. -/
def cfgTtl10 : ClientConfig := { cache_ttl := 10 }

/-- A client state holding a cache entry for `moniker://a/b` written at
time 0. -/
def stSeed : ClientState := { cache := [("moniker://a/b", rsA, 0)] }

/-- A resolver that always answers 200 with `rsA`. -/
def epsOk : Nat → ResolveResponse := fun _ => .ok rsA

/-- A resolver whose first attempt times out and whose retry succeeds. -/
def epsFlaky : Nat → ResolveResponse :=
  fun i => if i = 0 then .transport "ReadTimeout" else .ok rsA

/-- A resolver that always answers 200 with the deprecated binding. -/
def epsDep : Nat → ResolveResponse := fun _ => .ok rsDep

/-- A deprecation-aware configuration with a callback and a 60-second
cache. -/
def cfgDep : ClientConfig :=
  { cache_ttl := 60, deprecation_enabled := true, warn_on_deprecated := true,
    has_deprecation_callback := true }

/-! ### C1: resolution caching -/

/-- C1 counterexample.  (i) A resolution that succeeds *from the cache*
does not refresh the entry: with TTL 10 and an entry written at time 0, a
resolve at time 9 succeeds with zero GETs, yet the next resolve at time 15
— within 6 < 10 seconds of that success — misses the cache and issues one
GET, not zero.  (ii) With `cache_ttl = 0`, a resolve whose first attempt
hits a retryable timeout issues two GETs, not exactly one. -/
theorem claim1_counterexample :
    (client_resolve cfgTtl10 stSeed 9 "moniker://a/b" epsOk).outcome = .ok rsA ∧
    (client_resolve cfgTtl10 stSeed 9 "moniker://a/b" epsOk).gets = 0 ∧
    ((15 : Int) - 9 < cfgTtl10.cache_ttl) ∧
    (client_resolve cfgTtl10
        (client_resolve cfgTtl10 stSeed 9 "moniker://a/b" epsOk).finalState
        15 "moniker://a/b" epsOk).gets = 1 ∧
    (client_resolve { cache_ttl := 0 } {} 0 "moniker://a/b" epsFlaky).gets = 2 := by
  refine ⟨rfl, rfl, by decide, rfl, rfl⟩

/-- C1 (amended).  (i) After a resolution that succeeds *against the
resolver* (a fresh resolution, which writes the cache) with
`cache_ttl > 0`, any resolve of the same moniker within `cache_ttl`
seconds is answered by the cached binding, issues zero GETs, and leaves the
state untouched.  (ii) With `cache_ttl = 0` the cache is neither read nor
written, and a resolve whose breaker passes and whose first attempt gets a
terminal answer (success, 404 or another HTTP status) issues exactly one
GET; transport-level failures are retried, one GET per attempt, as the
counterexample shows. -/
theorem claim1_resolution_caching :
    (∀ (cfg : ClientConfig) (st : ClientState) (now : Int) (m : String)
        (ε : Nat → ResolveResponse) (rs : ResolvedSource),
      0 < cfg.cache_ttl →
      cacheLive cfg st now m = none →
      (client_resolve cfg st now m ε).outcome = .ok rs →
      ∀ (now' : Int) (ε' : Nat → ResolveResponse), now' - now < cfg.cache_ttl →
        client_resolve cfg (client_resolve cfg st now m ε).finalState now' m ε'
          = ⟨.ok rs, (client_resolve cfg st now m ε).finalState, 0, [], []⟩) ∧
    (∀ (cfg : ClientConfig) (st : ClientState) (now : Int) (m : String)
        (ε : Nat → ResolveResponse),
      cfg.cache_ttl = 0 →
      cacheLive cfg st now m = none ∧
      (client_resolve cfg st now m ε).finalState.cache = st.cache ∧
      ((st.breaker.before_request now).1 = .pass →
        (∀ e, respToExcept (ε 0) = .error e → isRetryable cfg.retry e = false) →
        (client_resolve cfg st now m ε).gets = 1)) := by
  constructor
  · intro cfg st now m ε rs httl hmiss hok now' ε' hlt
    rw [client_resolve_cache_miss cfg st now m ε hmiss] at hok ⊢
    rcases resolveFresh_cases cfg st now m ε with
      ⟨rem, b', hbr, hrun⟩ | ⟨b', hbr, hcase⟩
    · rw [hrun] at hok
      dsimp only at hok
      cases hok
    · rcases hcase with ⟨rs', n, hrt, hrun⟩ | ⟨e, n, hrt, hnf, hrun⟩ |
        ⟨e, n, hrt, hnf, hrun⟩ | ⟨last, n, hrt, hrun⟩
      · rw [hrun] at hok
        dsimp only at hok
        have hrs : rs' = rs := by injection hok
        subst hrs
        rw [hrun]
        dsimp only
        rw [if_pos httl]
        exact client_resolve_cache_hit cfg
          ⟨cacheInsert st.cache m (rs', now), b'.on_success⟩ now' m ε' rs'
          (cacheLive_after_insert cfg st.cache b'.on_success now now' m rs' httl hlt)
      · rw [hrun] at hok
        dsimp only at hok
        cases hok
      · rw [hrun] at hok
        dsimp only at hok
        split_ifs at hok
      · rw [hrun] at hok
        dsimp only at hok
        cases hok
  · intro cfg st now m ε httl
    have hmiss : cacheLive cfg st now m = none := by
      unfold cacheLive
      rw [if_neg (by omega)]
    refine ⟨hmiss, ?_, ?_⟩
    · rw [client_resolve_cache_miss cfg st now m ε hmiss]
      rcases resolveFresh_cases cfg st now m ε with
        ⟨rem, b', hbr, hrun⟩ | ⟨b', hbr, hcase⟩
      · rw [hrun]
      · rcases hcase with ⟨rs', n, hrt, hrun⟩ | ⟨e, n, hrt, hnf, hrun⟩ |
          ⟨e, n, hrt, hnf, hrun⟩ | ⟨last, n, hrt, hrun⟩
        · rw [hrun]
          dsimp only
          rw [if_neg (by omega : ¬ cfg.cache_ttl > 0)]
        · rw [hrun]
        · rw [hrun]
        · rw [hrun]
    · intro hpass hterm
      rw [client_resolve_cache_miss cfg st now m ε hmiss]
      have hone : (retry_with_backoff cfg.retry (fun i => respToExcept (ε i))).2 = 1 :=
        retry_first_terminal cfg.retry _ hterm
      rcases resolveFresh_cases cfg st now m ε with
        ⟨rem, b', hbr, hrun⟩ | ⟨b', hbr, hcase⟩
      · rw [hbr] at hpass
        cases hpass
      · rcases hcase with ⟨rs', n, hrt, hrun⟩ | ⟨e, n, hrt, hnf, hrun⟩ |
          ⟨e, n, hrt, hnf, hrun⟩ | ⟨last, n, hrt, hrun⟩ <;>
          rw [hrt] at hone <;> rw [hrun] <;> exact hone

/-- C1 witness: a fresh success at time 0 with TTL 10 makes the resolve at
time 5 answer from the cache with zero GETs; and with TTL 0 a clean
resolve issues exactly one GET. -/
theorem claim1_witness :
    client_resolve cfgTtl10 (client_resolve cfgTtl10 {} 0 "moniker://a/b" epsOk).finalState
        5 "moniker://a/b" epsOk
      = ⟨.ok rsA, (client_resolve cfgTtl10 {} 0 "moniker://a/b" epsOk).finalState,
         0, [], []⟩ ∧
    (client_resolve { cache_ttl := 0 } {} 0 "moniker://a/b" epsOk).gets = 1 := by
  constructor
  · exact claim1_resolution_caching.1 cfgTtl10 {} 0 "moniker://a/b" epsOk rsA
      (by decide) (by rfl) (by rfl) 5 epsOk (by decide)
  · exact (claim1_resolution_caching.2 { cache_ttl := 0 } {} 0 "moniker://a/b" epsOk
      rfl).2.2 (by rfl) (fun e he => by cases he)

/-! ### C3: 404s and the circuit breaker -/

/-- C3 counterexample: `batch_resolve` has no 404 handling — a 404 from
`POST /resolve/batch` surfaces as `raise_for_status`'s `HTTPStatusError`
(not a `NotFoundError`) and, against the claim, increments the breaker's
failure count from 0 to 1. -/
theorem claim3_counterexample :
    ({} : ClientState).breaker.failureCount = 0 ∧
    (client_batch_resolve { cache_ttl := 0 } {} 0 ["a/b"] (.httpError 404)).raised
      = some ⟨"HTTPStatusError", some 404⟩ ∧
    (client_batch_resolve { cache_ttl := 0 } {} 0 ["a/b"]
        (.httpError 404)).finalState.breaker.failureCount = 1 := by
  exact ⟨rfl, rfl, rfl⟩

/-- C3 (amended).  For single resolution the claim holds as stated: a 404
raises `NotFoundError` and leaves the breaker's failure count untouched,
while every other resolution failure (non-2xx, transport, exhaustion)
increments it by one.  For batch resolution a 404 from the batch endpoint
is *not* translated to a not-found error: it raises `HTTPStatusError` and
is recorded as a breaker failure like any other non-2xx, as the
counterexample shows. -/
theorem claim3_notfound_and_breaker :
    (∀ (cfg : ClientConfig) (st : ClientState) (now : Int) (m : String)
        (ε : Nat → ResolveResponse),
      (client_resolve cfg st now m ε).outcome = .notFound →
      (client_resolve cfg st now m ε).finalState.breaker.failureCount
        = st.breaker.failureCount) ∧
    (∀ (cfg : ClientConfig) (st : ClientState) (now : Int) (m : String)
        (ε : Nat → ResolveResponse),
      ((client_resolve cfg st now m ε).outcome = .resolutionError ∨
       (∃ tn, (client_resolve cfg st now m ε).outcome = .transportError tn) ∨
       (client_resolve cfg st now m ε).outcome = .retriesExhausted) →
      (client_resolve cfg st now m ε).finalState.breaker.failureCount
        = st.breaker.failureCount + 1) ∧
    (∀ (cfg : ClientConfig) (st : ClientState) (now : Int) (ms : List String)
        (status : Nat),
      (batchPartition cfg st now ms).2.isEmpty = false →
      (st.breaker.before_request now).1 = .pass →
      (client_batch_resolve cfg st now ms (.httpError status)).raised
        = some ⟨"HTTPStatusError", some status⟩ ∧
      (client_batch_resolve cfg st now ms (.httpError status)).finalState.breaker.failureCount
        = st.breaker.failureCount + 1) := by
  refine ⟨?_, ?_, ?_⟩
  · intro cfg st now m ε hnf
    rcases hc : cacheLive cfg st now m with _ | rs
    · rw [client_resolve_cache_miss cfg st now m ε hc] at hnf ⊢
      rcases resolveFresh_cases cfg st now m ε with
        ⟨rem, b', hbr, hrun⟩ | ⟨b', hbr, hcase⟩
      · rw [hrun] at hnf
        dsimp only at hnf
        cases hnf
      · rcases hcase with ⟨rs', n, hrt, hrun⟩ | ⟨e, n, hrt, hne, hrun⟩ |
          ⟨e, n, hrt, hne, hrun⟩ | ⟨last, n, hrt, hrun⟩
        · rw [hrun] at hnf
          dsimp only at hnf
          cases hnf
        · rw [hrun]
          dsimp only
          have := before_request_keeps_failureCount st.breaker now
          rw [hbr] at this
          exact this
        · rw [hrun] at hnf
          dsimp only at hnf
          split_ifs at hnf
        · rw [hrun] at hnf
          dsimp only at hnf
          cases hnf
    · rw [client_resolve_cache_hit cfg st now m ε rs hc] at hnf
      cases hnf
  · intro cfg st now m ε hfail
    rcases hc : cacheLive cfg st now m with _ | rs
    · rw [client_resolve_cache_miss cfg st now m ε hc] at hfail ⊢
      rcases resolveFresh_cases cfg st now m ε with
        ⟨rem, b', hbr, hrun⟩ | ⟨b', hbr, hcase⟩
      · rw [hrun] at hfail
        dsimp only at hfail
        rcases hfail with h | ⟨tn, h⟩ | h <;> cases h
      · rcases hcase with ⟨rs', n, hrt, hrun⟩ | ⟨e, n, hrt, hne, hrun⟩ |
          ⟨e, n, hrt, hne, hrun⟩ | ⟨last, n, hrt, hrun⟩
        · rw [hrun] at hfail
          dsimp only at hfail
          rcases hfail with h | ⟨tn, h⟩ | h <;> cases h
        · rw [hrun] at hfail
          dsimp only at hfail
          rcases hfail with h | ⟨tn, h⟩ | h <;> cases h
        · rw [hrun]
          dsimp only
          have hb := before_request_keeps_failureCount st.breaker now
          rw [hbr] at hb
          have hf := on_failure_fields b' now
          rw [hf.2.2.2, hb]
        · rw [hrun]
          dsimp only
          have hb := before_request_keeps_failureCount st.breaker now
          rw [hbr] at hb
          have hf := on_failure_fields b' now
          rw [hf.2.2.2, hb]
    · rw [client_resolve_cache_hit cfg st now m ε rs hc] at hfail
      rcases hfail with h | ⟨tn, h⟩ | h <;> cases h
  · intro cfg st now ms status hne hpass
    rcases hbr : st.breaker.before_request now with ⟨r, b'⟩
    rw [hbr] at hpass
    dsimp only at hpass
    subst hpass
    unfold client_batch_resolve
    rw [hne, hbr]
    rw [if_neg Bool.false_ne_true]
    refine ⟨rfl, ?_⟩
    show (b'.on_failure now).failureCount = st.breaker.failureCount + 1
    have hf := on_failure_fields b' now
    have hb := before_request_keeps_failureCount st.breaker now
    rw [hbr] at hb
    simp at hb
    omega

/-- C3 witness: a 404-answering resolver leaves a fresh client's breaker
count at 0 while raising not-found; a 500-answering resolver raises a
resolution error that counts one breaker failure; and the batch part at a
concrete 500. -/
theorem claim3_witness :
    (client_resolve { cache_ttl := 0 } {} 0 "moniker://a/b"
        (fun _ => .notFound)).finalState.breaker.failureCount
      = ({} : ClientState).breaker.failureCount ∧
    (client_resolve { cache_ttl := 0 } {} 0 "moniker://a/b"
        (fun _ => .httpError 500 "boom")).finalState.breaker.failureCount
      = ({} : ClientState).breaker.failureCount + 1 ∧
    (client_batch_resolve { cache_ttl := 0 } {} 0 ["a/b"] (.httpError 500)).raised
      = some ⟨"HTTPStatusError", some 500⟩ := by
  refine ⟨?_, ?_, ?_⟩
  · exact claim3_notfound_and_breaker.1 { cache_ttl := 0 } {} 0 "moniker://a/b"
      (fun _ => .notFound) (by rfl)
  · exact claim3_notfound_and_breaker.2.1 { cache_ttl := 0 } {} 0 "moniker://a/b"
      (fun _ => .httpError 500 "boom") (Or.inl (by rfl))
  · exact (claim3_notfound_and_breaker.2.2 { cache_ttl := 0 } {} 0 ["a/b"] 500
      (by rfl) (by rfl)).1

/-! ### C5: error classification in `read` -/

/-- C5 counterexample: a 500 from the resolver makes `_resolve` raise
`ResolutionError`, and `read` catches it in its blanket `except Exception`
clause and re-raises it wrapped as `FetchError` — it does not surface to
the caller of `read()` as a `ResolutionError`. -/
theorem claim5_counterexample :
    (client_read { cache_ttl := 0 } {} 0 "a/b" (fun _ => .httpError 500 "boom")
        (fun _ => .ok (.vint 1))).outcome = .fetchError "ResolutionError" ∧
    (client_resolve { cache_ttl := 0 } {} 0 (resolveKey "a/b")
        (fun _ => .httpError 500 "boom")).outcome = .resolutionError := by
  exact ⟨rfl, rfl⟩

/-- C5 (amended).  In `read()`: a `NotFoundError` — whether from the
resolution step or from the adapter fetch — propagates unwrapped; a
successful resolution followed by a failing fetch yields a `FetchError`
wrapping the fetch error; and every resolution-step failure other than
not-found (`ResolutionError` included) is also wrapped as `FetchError`
rather than surfacing as its own kind. -/
theorem claim5_error_classification :
    (∀ (cfg : ClientConfig) (st : ClientState) (now : Int) (m : String)
        (ε : Nat → ResolveResponse) (fetch : ResolvedSource → Except PyError PyVal),
      (client_resolve cfg st now (resolveKey m) ε).outcome = .notFound →
      (client_read cfg st now m ε fetch).outcome = .notFound) ∧
    (∀ cfg st now m ε fetch (rs : ResolvedSource) (d : PyVal),
      (client_resolve cfg st now (resolveKey m) ε).outcome = .ok rs →
      fetch rs = .ok d →
      (client_read cfg st now m ε fetch).outcome = .ok d) ∧
    (∀ cfg st now m ε fetch (rs : ResolvedSource) (e : PyError),
      (client_resolve cfg st now (resolveKey m) ε).outcome = .ok rs →
      fetch rs = .error e → e.typeName ≠ "NotFoundError" →
      (client_read cfg st now m ε fetch).outcome = .fetchError e.typeName) ∧
    (∀ cfg st now m ε fetch (rs : ResolvedSource) (e : PyError),
      (client_resolve cfg st now (resolveKey m) ε).outcome = .ok rs →
      fetch rs = .error e → e.typeName = "NotFoundError" →
      (client_read cfg st now m ε fetch).outcome = .notFound) ∧
    (∀ cfg st now m ε fetch,
      (client_resolve cfg st now (resolveKey m) ε).outcome = .resolutionError →
      (client_read cfg st now m ε fetch).outcome = .fetchError "ResolutionError") := by
  refine ⟨?_, ?_, ?_, ?_, ?_⟩
  · intro cfg st now m ε fetch h
    unfold client_read
    rw [h]
    rfl
  · intro cfg st now m ε fetch rs d h hf
    unfold client_read
    rw [h]
    show readClassify fetch (.ok rs) = .ok d
    unfold readClassify
    dsimp only
    rw [hf]
  · intro cfg st now m ε fetch rs e h hf hne
    unfold client_read
    rw [h]
    show readClassify fetch (.ok rs) = .fetchError e.typeName
    unfold readClassify
    dsimp only
    rw [hf]
    dsimp only
    rw [if_neg hne]
  · intro cfg st now m ε fetch rs e h hf hnf
    unfold client_read
    rw [h]
    show readClassify fetch (.ok rs) = .notFound
    unfold readClassify
    dsimp only
    rw [hf]
    dsimp only
    rw [if_pos hnf]
  · intro cfg st now m ε fetch h
    unfold client_read
    rw [h]
    rfl

/-- C5 witness: the classification at concrete runs — a 404 resolver
(read raises not-found), a successful resolve with successful fetch, and a
successful resolve with a failing (non-404) fetch wrapped as FetchError. -/
theorem claim5_witness :
    (client_read { cache_ttl := 0 } {} 0 "a/b" (fun _ => .notFound)
        (fun _ => .ok (.vint 1))).outcome = .notFound ∧
    (client_read { cache_ttl := 0 } {} 0 "a/b" epsOk
        (fun _ => .ok (.vint 1))).outcome = .ok (.vint 1) ∧
    (client_read { cache_ttl := 0 } {} 0 "a/b" epsOk
        (fun _ => .error ⟨"OracleTimeout", none⟩)).outcome
      = .fetchError "OracleTimeout" := by
  refine ⟨?_, ?_, ?_⟩
  · exact claim5_error_classification.1 { cache_ttl := 0 } {} 0 "a/b"
      (fun _ => .notFound) (fun _ => .ok (.vint 1)) (by rfl)
  · exact claim5_error_classification.2.1 { cache_ttl := 0 } {} 0 "a/b"
      epsOk (fun _ => .ok (.vint 1)) rsA (.vint 1) (by rfl) (by rfl)
  · exact claim5_error_classification.2.2.1 { cache_ttl := 0 } {} 0 "a/b"
      epsOk (fun _ => .error ⟨"OracleTimeout", none⟩) rsA ⟨"OracleTimeout", none⟩
      (by rfl) (by rfl) (by decide)

/-! ### C6: deprecation warnings -/

/-- The warning a binding contributes, as a function of the three gates. -/
theorem warnEvents_fst (cfg : ClientConfig) (rs : ResolvedSource) :
    (warnEvents cfg rs).1
      = if (cfg.deprecation_enabled && rs.is_deprecated && cfg.warn_on_deprecated) = true
        then [deprecationMsg rs] else [] := by
  unfold warnEvents
  by_cases h1 : cfg.deprecation_enabled = true <;>
    by_cases h2 : rs.is_deprecated = true <;>
      by_cases h3 : cfg.warn_on_deprecated = true <;>
        simp [h1, h2, h3]

/-- The warnings of `batch_resolve`'s result loop: one per binding that
passes the deprecation gates, in order. -/
theorem batch_fold_warnings (cfg : ClientConfig) (now : Int)
    (items : List ResolvedSource)
    (r0 : List (String × ResolvedSource)) (c0 : List (String × ResolvedSource × Int))
    (w0 : List String) (cb0 : List (String × Option String × Option String)) :
    (items.foldl (batchItemStep cfg now) (r0, c0, w0, cb0)).2.2.1
      = w0 ++ (items.filter (fun rs =>
          cfg.deprecation_enabled && rs.is_deprecated && cfg.warn_on_deprecated)).map
            deprecationMsg := by
  induction items generalizing r0 c0 w0 cb0 with
  | nil => simp
  | cons rs rest ih =>
    rw [List.foldl_cons]
    show (rest.foldl (batchItemStep cfg now)
        (resultsSet r0 rs.path rs,
         if cfg.cache_ttl > 0 then cacheInsert c0 ("moniker://" ++ rs.path) (rs, now) else c0,
         w0 ++ (warnEvents cfg rs).1,
         cb0 ++ (warnEvents cfg rs).2)).2.2.1 = _
    rw [ih]
    rw [List.filter_cons, warnEvents_fst]
    by_cases hcond :
        (cfg.deprecation_enabled && rs.is_deprecated && cfg.warn_on_deprecated) = true
    · rw [if_pos hcond, if_pos hcond]
      simp
    · rw [if_neg hcond, if_neg hcond]
      simp

/-- The callback invocation a binding contributes, as a function of the
three gates and the configured callback. -/
theorem warnEvents_snd (cfg : ClientConfig) (rs : ResolvedSource) :
    (warnEvents cfg rs).2
      = if (cfg.deprecation_enabled && rs.is_deprecated && cfg.warn_on_deprecated) = true
        then (if cfg.has_deprecation_callback = true
              then [(rs.path, rs.deprecation_message, rs.successor)] else [])
        else [] := by
  unfold warnEvents
  by_cases h1 : cfg.deprecation_enabled = true <;>
    by_cases h2 : rs.is_deprecated = true <;>
      by_cases h3 : cfg.warn_on_deprecated = true <;>
        simp [h1, h2, h3]

/-- The callback invocations of `batch_resolve`'s result loop: when a
callback is configured, one `(path, message, successor)` triple per
binding that passes the deprecation gates, in order; otherwise none. -/
theorem batch_fold_callbacks (cfg : ClientConfig) (now : Int)
    (items : List ResolvedSource)
    (r0 : List (String × ResolvedSource)) (c0 : List (String × ResolvedSource × Int))
    (w0 : List String) (cb0 : List (String × Option String × Option String)) :
    (items.foldl (batchItemStep cfg now) (r0, c0, w0, cb0)).2.2.2
      = cb0 ++ (if cfg.has_deprecation_callback = true then
          (items.filter (fun rs =>
            cfg.deprecation_enabled && rs.is_deprecated && cfg.warn_on_deprecated)).map
              (fun rs => (rs.path, rs.deprecation_message, rs.successor))
        else []) := by
  induction items generalizing r0 c0 w0 cb0 with
  | nil =>
    by_cases hcb : cfg.has_deprecation_callback = true <;> simp [hcb]
  | cons rs rest ih =>
    rw [List.foldl_cons]
    show (rest.foldl (batchItemStep cfg now)
        (resultsSet r0 rs.path rs,
         if cfg.cache_ttl > 0 then cacheInsert c0 ("moniker://" ++ rs.path) (rs, now) else c0,
         w0 ++ (warnEvents cfg rs).1,
         cb0 ++ (warnEvents cfg rs).2)).2.2.2 = _
    rw [ih]
    rw [List.filter_cons, warnEvents_snd]
    by_cases hcond :
        (cfg.deprecation_enabled && rs.is_deprecated && cfg.warn_on_deprecated) = true
    · rw [if_pos hcond, if_pos hcond]
      by_cases hcb : cfg.has_deprecation_callback = true
      · rw [if_pos hcb, if_pos hcb, if_pos hcb]
        simp
      · rw [if_neg hcb, if_neg hcb, if_neg hcb]
        simp
    · rw [if_neg hcond, if_neg hcond]
      simp

/-- A configuration with `warn_on_deprecated` set but the
`deprecation_enabled` gate off (its default). -/
def cfgDepOff : ClientConfig :=
  { cache_ttl := 0, deprecation_enabled := false, warn_on_deprecated := true }

/-- C6 counterexample.  With deprecation enabled and a 60-second cache:
the first resolve of a deprecated binding warns once, but a second resolve
of the same moniker 10 seconds later is answered from the cache and emits
zero warnings and zero callback invocations — not "exactly one per call".
And with the `deprecation_enabled` gate off (its default), a fresh resolve
of a deprecated binding emits no warning even though `warn_on_deprecated`
is true, against the claim's reading that `warn_on_deprecated` alone
suffices. -/
theorem claim6_counterexample :
    (client_resolve cfgDep {} 0 "moniker://a/b" epsDep).warnings
      = ["Moniker 'a/b' is deprecated. use new.path Successor: new/path"] ∧
    (client_resolve cfgDep (client_resolve cfgDep {} 0 "moniker://a/b" epsDep).finalState
        10 "moniker://a/b" epsDep).outcome = .ok rsDep ∧
    (client_resolve cfgDep (client_resolve cfgDep {} 0 "moniker://a/b" epsDep).finalState
        10 "moniker://a/b" epsDep).warnings = [] ∧
    (client_resolve cfgDep (client_resolve cfgDep {} 0 "moniker://a/b" epsDep).finalState
        10 "moniker://a/b" epsDep).callbackCalls = [] ∧
    (client_resolve cfgDepOff {} 0 "moniker://a/b" epsDep).outcome = .ok rsDep ∧
    (client_resolve cfgDepOff {} 0 "moniker://a/b" epsDep).warnings = [] := by
  exact ⟨rfl, rfl, rfl, rfl, rfl, rfl⟩

/-- C6 (amended).  When deprecation is enabled (the `deprecation_enabled`
gate, off by default) and `warn_on_deprecated` holds: a resolve answered
by the resolver (not the cache) whose binding is deprecated emits exactly
one warning — carrying path, message and successor via `deprecationMsg` —
and invokes the callback exactly once with `(path, message, successor)`
when one is configured; a resolve answered from the cache emits no warning
and no callback; and a batch resolve emits exactly one warning per
deprecated binding in the response and, when a callback is configured,
invokes it exactly once per deprecated binding with
`(path, message, successor)`. -/
theorem claim6_deprecation_warnings :
    (∀ (cfg : ClientConfig) (st : ClientState) (now : Int) (m : String)
        (ε : Nat → ResolveResponse) (rs : ResolvedSource),
      cacheLive cfg st now m = none →
      (client_resolve cfg st now m ε).outcome = .ok rs →
      cfg.deprecation_enabled = true → rs.is_deprecated = true →
      cfg.warn_on_deprecated = true →
      (client_resolve cfg st now m ε).warnings = [deprecationMsg rs] ∧
      (client_resolve cfg st now m ε).callbackCalls
        = (if cfg.has_deprecation_callback then
            [(rs.path, rs.deprecation_message, rs.successor)] else [])) ∧
    (∀ (cfg : ClientConfig) (st : ClientState) (now : Int) (m : String)
        (ε : Nat → ResolveResponse) (rs : ResolvedSource),
      cacheLive cfg st now m = some rs →
      (client_resolve cfg st now m ε).outcome = .ok rs ∧
      (client_resolve cfg st now m ε).warnings = [] ∧
      (client_resolve cfg st now m ε).callbackCalls = []) ∧
    (∀ (cfg : ClientConfig) (st : ClientState) (now : Int) (ms : List String)
        (items : List ResolvedSource),
      (batchPartition cfg st now ms).2.isEmpty = false →
      (st.breaker.before_request now).1 = .pass →
      (client_batch_resolve cfg st now ms (.ok items)).warnings
        = (items.filter (fun rs =>
            cfg.deprecation_enabled && rs.is_deprecated && cfg.warn_on_deprecated)).map
              deprecationMsg ∧
      (client_batch_resolve cfg st now ms (.ok items)).callbackCalls
        = (if cfg.has_deprecation_callback = true then
            (items.filter (fun rs =>
              cfg.deprecation_enabled && rs.is_deprecated && cfg.warn_on_deprecated)).map
                (fun rs => (rs.path, rs.deprecation_message, rs.successor))
          else [])) := by
  refine ⟨?_, ?_, ?_⟩
  · intro cfg st now m ε rs hmiss hok h1 h2 h3
    rw [client_resolve_cache_miss cfg st now m ε hmiss] at hok ⊢
    rcases resolveFresh_cases cfg st now m ε with
      ⟨rem, b', hbr, hrun⟩ | ⟨b', hbr, hcase⟩
    · rw [hrun] at hok
      dsimp only at hok
      cases hok
    · rcases hcase with ⟨rs', n, hrt, hrun⟩ | ⟨e, n, hrt, hne, hrun⟩ |
        ⟨e, n, hrt, hne, hrun⟩ | ⟨last, n, hrt, hrun⟩
      · rw [hrun] at hok
        dsimp only at hok
        have hrs : rs' = rs := by injection hok
        subst hrs
        rw [hrun]
        refine ⟨?_, ?_⟩
        · show (warnEvents cfg rs').1 = [deprecationMsg rs']
          unfold warnEvents
          rw [if_pos ⟨h1, h2, h3⟩]
        · show (warnEvents cfg rs').2 = _
          unfold warnEvents
          rw [if_pos ⟨h1, h2, h3⟩]
      · rw [hrun] at hok
        dsimp only at hok
        cases hok
      · rw [hrun] at hok
        dsimp only at hok
        split_ifs at hok
      · rw [hrun] at hok
        dsimp only at hok
        cases hok
  · intro cfg st now m ε rs hhit
    rw [client_resolve_cache_hit cfg st now m ε rs hhit]
    exact ⟨rfl, rfl, rfl⟩
  · intro cfg st now ms items hne hpass
    rcases hbr : st.breaker.before_request now with ⟨r, b'⟩
    rw [hbr] at hpass
    dsimp only at hpass
    subst hpass
    unfold client_batch_resolve
    rw [hne, hbr]
    rw [if_neg Bool.false_ne_true]
    constructor
    · show (items.foldl (batchItemStep cfg now)
          ((batchPartition cfg st now ms).1, st.cache, [], [])).2.2.1 = _
      rw [batch_fold_warnings]
      simp
    · show (items.foldl (batchItemStep cfg now)
          ((batchPartition cfg st now ms).1, st.cache, [], [])).2.2.2 = _
      rw [batch_fold_callbacks]
      simp

/-- C6 witness: the fresh deprecated resolve under `cfgDep` warns exactly
once with the full message and invokes the callback once; the cache-hit
resolve of the same binding emits nothing; a batch response with one
deprecated and one active binding warns once and invokes the configured
callback once with `(path, message, successor)`. -/
theorem claim6_witness :
    (client_resolve cfgDep {} 0 "moniker://a/b" epsDep).warnings
      = [deprecationMsg rsDep] ∧
    (client_resolve cfgDep {} 0 "moniker://a/b" epsDep).callbackCalls
      = [("a/b", some "use new.path", some "new/path")] ∧
    (client_resolve cfgDep (client_resolve cfgDep {} 0 "moniker://a/b" epsDep).finalState
        10 "moniker://a/b" epsDep).warnings = [] ∧
    (client_batch_resolve cfgDep {} 0 ["x/y"] (.ok [rsDep, rsA])).warnings
      = [deprecationMsg rsDep] ∧
    (client_batch_resolve cfgDep {} 0 ["x/y"] (.ok [rsDep, rsA])).callbackCalls
      = [("a/b", some "use new.path", some "new/path")] := by
  have h1 := (claim6_deprecation_warnings.1 cfgDep {} 0 "moniker://a/b" epsDep rsDep
    (by rfl) (by rfl) (by rfl) (by rfl) (by rfl))
  have h2 := (claim6_deprecation_warnings.2.1 cfgDep
    (client_resolve cfgDep {} 0 "moniker://a/b" epsDep).finalState 10 "moniker://a/b"
    epsDep rsDep (by rfl))
  have h3 := claim6_deprecation_warnings.2.2 cfgDep {} 0 ["x/y"] [rsDep, rsA]
    (by rfl) (by rfl)
  exact ⟨h1.1, by rw [h1.2]; rfl, h2.2.1, by rw [h3.1]; rfl, by rw [h3.2]; rfl⟩
